import Mathlib

/-
  Verification development for the EasyIndexedDB library
  (src/EasyIndexedDB.js), a promise-based client layer over IndexedDB.

  Shallow embedding notes.
  * JS records (plain objects) are modelled as association lists
    `List (String × Val)` in insertion order; `getField`, `setField` and
    `deleteField` model property read, assignment and `delete`.
  * An IndexedDB object store is modelled as `ObjectStore`: its declared
    indexes (name, uniqueness) in creation order, its records as
    `(key, record)` pairs in ascending key order (the store keeps
    `autoIncrement` keys, so records are only ever appended with a fresh
    strictly larger key), and the next auto-increment key.
  * The persistent database is `Database` (version, named stores); the
    client object `EasyIndexedDB` is `Client` (`#database` connection
    handle modelled as an `Option` of a connection id, `#databaseName`,
    `#databaseVersion`); `St` bundles client, persistent database, a
    fresh-connection counter, the `#objectStoreNameLastModifyDate` field
    and the formatted current timestamp (`#getActualDate` depends on the
    host clock and Intl formatting, so the formatted timestamp is
    threaded through the state as `now`).
  * Each operation returns its final state, the list of persistent
    database states committed by each of its (write) transactions in
    order, and the settled promise value (`Except String` for
    reject/resolve).  Operations whose promise can never settle
    (handlers installed on events that never fire) return an
    `Option (Except String String)` with `none` for "never settles".
  * The JS `typeof` validations are discharged by the Lean types; the
    remaining value-level validations are modelled explicitly.
-/

inductive Val where
  | str (s : String)
  | int (n : Int)
  deriving DecidableEq, Repr

def Val.show : Val → String
  | .str s => s
  | .int n => toString n

abbrev Record := List (String × Val)

/-- Property read: `record[k]`, `none` for a missing property. -/
def getField : Record → String → Option Val
  | [], _ => none
  | (k2, v) :: t, k => if k2 == k then some v else getField t k

/-- The JS `k in record` test. -/
def hasField (r : Record) (k : String) : Bool :=
  (getField r k).isSome

/-- Property assignment `record[k] = v`: overwrite in place if the
property exists, otherwise append it. -/
def setField : Record → String → Val → Record
  | [], k, v => [(k, v)]
  | (k2, v2) :: t, k, v => if k2 == k then (k, v) :: t else (k2, v2) :: setField t k v

/-- The JS `delete record[k]`. -/
def deleteField : Record → String → Record
  | [], _ => []
  | (k2, v2) :: t, k => if k2 == k then deleteField t k else (k2, v2) :: deleteField t k

/-- One object store: declared indexes (name, uniqueness flag) in
creation order, records keyed by the auto-increment key in ascending key
order, and the key generator state. -/
structure ObjectStore where
  indexes : List (String × Bool)
  records : List (Nat × Record)
  nextKey : Nat
  deriving DecidableEq, Repr

def hasIndex (os : ObjectStore) (n : String) : Bool :=
  os.indexes.any (fun p => p.1 == n)

/-- `index.getKey(value)`: the primary key of the first matching record
in key order (records are kept in ascending key order). -/
def indexGetKey (os : ObjectStore) (field : String) (v : Val) : Option Nat :=
  ((os.records.filter (fun kr => getField kr.2 field == some v)).head?).map (fun kr => kr.1)

/-- `index.getAllKeys(IDBKeyRange.only(value))`. -/
def indexGetAllKeys (os : ObjectStore) (field : String) (v : Val) : List Nat :=
  (os.records.filter (fun kr => getField kr.2 field == some v)).map (fun kr => kr.1)

/-- Does `objectStore.add(r)` violate some unique index of the store? -/
def addViolatesUnique (os : ObjectStore) (r : Record) : Bool :=
  os.indexes.any (fun idx => idx.2 &&
    (match getField r idx.1 with
     | some v => os.records.any (fun kr => getField kr.2 idx.1 == some v)
     | none => false))

/-- `objectStore.add(r)`: assign the next auto-increment key, or fail on
a unique-index violation (the host reports a ConstraintError). -/
def osAdd (os : ObjectStore) (r : Record) : Except String ObjectStore :=
  if addViolatesUnique os r then .error "ConstraintError"
  else .ok ⟨os.indexes, os.records ++ [(os.nextKey, r)], os.nextKey + 1⟩

/-- Sequential `add` of each record in one transaction (each add sees
the earlier ones). -/
def osAddAll (os : ObjectStore) (rs : List Record) : Except String ObjectStore :=
  match rs with
  | [] => .ok os
  | r :: t =>
    match osAdd os r with
    | .error e => .error e
    | .ok os2 => osAddAll os2 t

structure Database where
  version : Nat
  stores : List (String × ObjectStore)
  deriving DecidableEq, Repr

def getStore (db : Database) (name : String) : Option ObjectStore :=
  db.stores.lookup name

/-- `db.objectStoreNames.contains(name)`. -/
def containsStore (db : Database) (name : String) : Bool :=
  (getStore db name).isSome

/-- Update-or-append a named store. -/
def setStoreList : List (String × ObjectStore) → String → ObjectStore → List (String × ObjectStore)
  | [], n, os => [(n, os)]
  | (m, o) :: t, n, os => if m == n then (n, os) :: t else (m, o) :: setStoreList t n os

/-- The client object: `#database` (the held connection, `none` when no
connection has been stored), `#databaseName`, `#databaseVersion`. -/
structure Client where
  database : Option Nat
  databaseName : String
  databaseVersion : Nat
  deriving DecidableEq, Repr

/-- Client plus host world: the persistent database, a counter supplying
fresh connection ids, the marker-store name and the formatted current
timestamp. -/
structure St where
  client : Client
  db : Database
  nextConn : Nat
  markerName : String
  now : String
  deriving DecidableEq, Repr

/-- JS `s.replace(/\s+/g, "")`. -/
def stripWs (s : String) : String :=
  String.mk (s.toList.filter (fun c => !c.isWhitespace))

structure IndexSpec where
  name : String
  unique : Bool
  deriving DecidableEq, Repr

structure RenameSpec where
  oldName : String
  newName : String
  unique : Bool
  deriving DecidableEq, Repr

inductive SelectRes where
  | obj (r : Record)
  | nullv
  | undefv
  deriving DecidableEq, Repr

structure MultiQuery where
  index : String
  value : Val
  specificIndexes : List String
  deriving DecidableEq, Repr

/-- The projection loop shared by the select operations: build
`filterRecord` by copying, in order, each requested field present on the
record. -/
def projectRecord (r : Record) (ks : List String) : Record :=
  ks.foldl (fun acc k =>
    match getField r k with
    | some v => setField acc k v
    | none => acc) []

/-- `insertDataObjectStore(objectStoreName, objIndexesValues)`
(src lines 188-202): one readwrite transaction doing a single `add`. -/
def insertDataObjectStore (st : St) (name : String) (r : Record) :
    St × List Database × Except String String :=
  match st.client.database with
  | none => (st, [], .error "Database has not been initialized and/or does not exist")
  | some _ =>
    match getStore st.db name with
    | none => (st, [], .error s!"Object Store \x27{name}\x27 does not exist")
    | some os =>
      match osAdd os r with
      | .error e => (st, [], .error e)
      | .ok os2 =>
        let db2 : Database := ⟨st.db.version, setStoreList st.db.stores name os2⟩
        ({ st with db := db2 }, [db2], .ok "Data were inserted successfully")

/-- `insertMultipleDataObjectStore(objectStoreName, arrayObjIndexValue)`
(src lines 211-237): all `add`s in one readwrite transaction; a failing
add makes the transaction abort, so nothing is persisted. -/
def insertMultipleDataObjectStore (st : St) (name : String) (rs : List Record) :
    St × List Database × Except String String :=
  if rs.isEmpty then
    (st, [], .error "arrayObjIndexValue must have objects with data to be inserted")
  else
    match st.client.database with
    | none => (st, [], .error "Database has not been initialized and/or does not exist")
    | some _ =>
      match getStore st.db name with
      | none => (st, [], .error s!"Object Store \x27{name}\x27 does not exist")
      | some os =>
        match osAddAll os rs with
        | .error e => (st, [], .error e)
        | .ok os2 =>
          let db2 : Database := ⟨st.db.version, setStoreList st.db.stores name os2⟩
          ({ st with db := db2 }, [db2], .ok "All data were inserted successfully")

/-- `selectDataObjectStore(objectStoreName, indexName, value,
arraySpecificIndexes)` (src lines 248-287).  A missing index rejects; a
key miss makes `objectStore.get(undefined)` throw (DataError), which the
source catches and resolves with `undefined`. -/
def selectDataObjectStore (st : St) (name indexName : String) (v : Val)
    (arraySpecificIndexes : List String) : Except String SelectRes :=
  match st.client.database with
  | none => .error "Database has not been initialized and/or does not exist"
  | some _ =>
    match getStore st.db name with
    | none => .error s!"Object Store \x27{name}\x27 does not exist"
    | some os =>
      if !(hasIndex os indexName) then
        .error s!"The index \x27{indexName}\x27 passed as a parameter was not found in the Object Store"
      else
        match indexGetKey os indexName v with
        | none => .ok .undefv
        | some k =>
          match os.records.lookup k with
          | none => .ok .nullv
          | some r =>
            if arraySpecificIndexes.isEmpty then .ok (.obj r)
            else
              let fr := projectRecord r arraySpecificIndexes
              if fr.isEmpty then .ok .nullv else .ok (.obj fr)

/-- One entry of `selectMultipleDataObjectStore` (the inner promise,
src lines 319-348): the same lookup as the single select, but every
failure (missing index, key miss) rejects the inner promise. -/
def selectEntry (os : ObjectStore) (q : MultiQuery) : Except String SelectRes :=
  if !(hasIndex os q.index) then
    .error s!"The index \x27{q.index}\x27 passed as a parameter to an object in the \x27index\x27 property was not found in the Object Store"
  else
    match indexGetKey os q.index q.value with
    | none =>
      let vs := Val.show q.value
      .error s!"The value \x27{vs}\x27 passed as a parameter in an object in the \x27value\x27 property was not found"
    | some k =>
      match os.records.lookup k with
      | none => .ok .nullv
      | some r =>
        if q.specificIndexes.isEmpty then .ok (.obj r)
        else
          let fr := projectRecord r q.specificIndexes
          if fr.isEmpty then .ok .nullv else .ok (.obj fr)

/-- `Promise.all` over the inner promises: entries settle in query order
(the store requests are served FIFO), the first rejection rejects the
whole call, and on success the results are in query order. -/
def selectEntries (os : ObjectStore) : List MultiQuery → Except String (List SelectRes)
  | [] => .ok []
  | q :: qs =>
    match selectEntry os q with
    | .error e => .error e
    | .ok r =>
      match selectEntries os qs with
      | .error e => .error e
      | .ok rs => .ok (r :: rs)

/-- `selectMultipleDataObjectStore(objectStoreName, arrayObjIndexValue)`
(src lines 296-353).  A query whose index is undeclared rejects its
inner promise synchronously while the promises are being constructed, so
the first such query settles `Promise.all` first; otherwise the entries
settle in query order and the first failing entry rejects the call. -/
def selectMultipleDataObjectStore (st : St) (name : String) (qs : List MultiQuery) :
    Except String (List SelectRes) :=
  if qs.isEmpty then .error "arrayObjIndexValue must have object(s)"
  else
    match st.client.database with
    | none => .error "Database has not been initialized and/or does not exist"
    | some _ =>
      match getStore st.db name with
      | none => .error s!"Object Store \x27{name}\x27 does not exist"
      | some os =>
        match qs.find? (fun q => !(hasIndex os q.index)) with
        | some q =>
          .error s!"The index \x27{q.index}\x27 passed as a parameter to an object in the \x27index\x27 property was not found in the Object Store"
        | none => selectEntries os qs

/-- `selectAllDataObjectStore(objectStoreName, indexes)` (src lines
362-400): `getAll`, then optional per-record projection dropping records
left empty. -/
def selectAllDataObjectStore (st : St) (name : String) (indexes : List String) :
    Except String (List Record) :=
  let indexes := indexes.filter (fun i => !(stripWs i == ""))
  match st.client.database with
  | none => .error "Database has not been initialized and/or does not exist"
  | some _ =>
    match getStore st.db name with
    | none => .error s!"Object Store \x27{name}\x27 does not exist"
    | some os =>
      let allRecords := os.records.map (fun kr => kr.2)
      if indexes.isEmpty then .ok allRecords
      else .ok ((allRecords.map (fun r => projectRecord r indexes)).filter (fun r => !r.isEmpty))

/-- `updateDataObjectStore(objectStoreName, index, currentValue,
newValue, changeValueFromCurrentValue, arrayObjIndexValue)` (src lines
538-583): a full forward-cursor scan updating every record whose `index`
field strictly equals `currentValue`; extra `{index, value}` updates
apply only to fields already present.  The resolve handler is installed
as `requestCursor.oncomplete`, an event an IDBRequest never fires, so on
the scan path the promise never settles (`none`).  (A `cursor.update`
rejected by a unique index would reject and abort; no claim depends on
that path and it never changes the version either.) -/
def updateDataObjectStore (st : St) (name index : String) (currentValue newValue : Val)
    (changeValueFromCurrentValue : Bool) (arrayObjIndexValue : List (String × Val)) :
    St × List Database × Option (Except String String) :=
  if !changeValueFromCurrentValue && arrayObjIndexValue.isEmpty then
    (st, [], some (.error "You need to specify one or more objects by specifying the indexes and new values that will be changed from the value of a index"))
  else
    match st.client.database with
    | none => (st, [], some (.error "Database has not been initialized and/or does not exist"))
    | some _ =>
      match getStore st.db name with
      | none => (st, [], some (.error s!"Object Store \x27{name}\x27 does not exist"))
      | some os =>
        let os2 : ObjectStore := ⟨os.indexes,
          os.records.map (fun kr =>
            if getField kr.2 index == some currentValue then
              let r1 := if changeValueFromCurrentValue then setField kr.2 index newValue else kr.2
              (kr.1, arrayObjIndexValue.foldl (fun acc p =>
                if hasField acc p.1 then setField acc p.1 p.2 else acc) r1)
            else kr),
          os.nextKey⟩
        let db2 : Database := ⟨st.db.version, setStoreList st.db.stores name os2⟩
        ({ st with db := db2 }, [db2], none)

/-- `deleteDataObjectStore(objectStoreName, indexName, value,
deleteAllOccurrences)` (src lines 594-640).  With `deleteAllOccurrences`
false: `getKey` then a single `delete`; a key miss makes
`objectStore.delete(undefined)` throw, which rejects.  With it true:
`getAllKeys(only(value))` then a `delete` per key; the resolve handler is
`requestAllKeys.oncomplete`, which never fires, so that path never
settles although the deletes commit. -/
def deleteDataObjectStore (st : St) (name indexName : String) (v : Val)
    (deleteAllOccurrences : Bool) : St × List Database × Option (Except String String) :=
  match st.client.database with
  | none => (st, [], some (.error "Database has not been initialized and/or does not exist"))
  | some _ =>
    match getStore st.db name with
    | none => (st, [], some (.error s!"Object Store \x27{name}\x27 does not exist"))
    | some os =>
      if !(hasIndex os indexName) then
        (st, [], some (.error s!"The index \x27{indexName}\x27 passed as a parameter was not found in the Object Store"))
      else if !deleteAllOccurrences then
        match indexGetKey os indexName v with
        | none =>
          let vs := Val.show v
          (st, [], some (.error s!"The value \x27{vs}\x27 passed as a parameter was not found in the Object Store"))
        | some k =>
          let os2 : ObjectStore := ⟨os.indexes, os.records.filter (fun kr => !(kr.1 == k)), os.nextKey⟩
          let db2 : Database := ⟨st.db.version, setStoreList st.db.stores name os2⟩
          ({ st with db := db2 }, [db2], some (.ok "Data was deleted successfully"))
      else
        let keys := indexGetAllKeys os indexName v
        let os2 : ObjectStore := ⟨os.indexes,
          keys.foldl (fun recs k => recs.filter (fun kr => !(kr.1 == k))) os.records,
          os.nextKey⟩
        let db2 : Database := ⟨st.db.version, setStoreList st.db.stores name os2⟩
        ({ st with db := db2 }, [db2], none)

/-- `deleteAllDataObjectStore(objectStoreName, indexes)` (src lines
732-766).  Empty `indexes`: `clear()` in one transaction.  Non-empty:
`getAll`, strip the listed fields from each record, drop records left
empty, then (in separate transactions started from the `getAll` success
handler) clear via the recursive call and re-insert the remainder.  The
outer transaction completes once `getAll` is handled, so the promise
resolves `"All data were removed"` before — and independently of — the
re-insert; a failure there rejects into an already-settled promise. -/
def deleteAllDataObjectStore (st : St) (name : String) (indexes : List String) :
    St × List Database × Except String String :=
  match st.client.database with
  | none => (st, [], .error "Database has not been initialized and/or does not exist")
  | some _ =>
    match getStore st.db name with
    | none => (st, [], .error s!"Object Store \x27{name}\x27 does not exist")
    | some os =>
      if indexes.isEmpty then
        let os2 : ObjectStore := ⟨os.indexes, [], os.nextKey⟩
        let db2 : Database := ⟨st.db.version, setStoreList st.db.stores name os2⟩
        ({ st with db := db2 }, [db2], .ok "All data were removed")
      else
        let remaining := ((os.records.map (fun kr => kr.2)).map
          (fun r => indexes.foldl (fun acc i => deleteField acc i) r)).filter (fun r => !r.isEmpty)
        let os1 : ObjectStore := ⟨os.indexes, [], os.nextKey⟩
        let db1 : Database := ⟨st.db.version, setStoreList st.db.stores name os1⟩
        if remaining.isEmpty then
          ({ st with db := db1 }, [db1], .ok "All data were removed")
        else
          match osAddAll os1 remaining with
          | .error _ => ({ st with db := db1 }, [db1], .ok "All data were removed")
          | .ok os2 =>
            let db2 : Database := ⟨st.db.version, setStoreList db1.stores name os2⟩
            ({ st with db := db2 }, [db1, db2], .ok "All data were removed")

/-- `cleanObjectStore(objectStoreName)` (src lines 774-780). -/
def cleanObjectStore (st : St) (name : String) : St × List Database × Except String Bool :=
  match deleteAllDataObjectStore st name [] with
  | (st2, tr, .ok _) => (st2, tr, .ok true)
  | (st2, tr, .error e) => (st2, tr, .error e)

/-- The first upgrade-transaction step shared by the structural
operations: a versioned `indexedDB.open(#databaseName, #databaseVersion
+ 1)` closing the held connection, running the given schema edit inside
`onupgradeneeded`, and storing the fresh connection and version. -/
def upgradeOpen (st : St) (edit : List (String × ObjectStore) → List (String × ObjectStore)) :
    St × Database :=
  let newVersion := st.client.databaseVersion + 1
  let db2 : Database := ⟨newVersion, edit st.db.stores⟩
  (⟨⟨some st.nextConn, st.client.databaseName, newVersion⟩, db2,
    st.nextConn + 1, st.markerName, st.now⟩, db2)

/-- `createObjectStore` (src lines 115-148) without the
`setLastModifyDate` step: validations, the already-exists resolve, and
the upgrade transaction creating the store with its indexes.  `.ok true`
means the store was created, `.ok false` that it already existed.  The
versioned open can only upgrade while `#databaseVersion` mirrors the
persistent version (the invariant every operation maintains); with a
stale cached version the host rejects the open, modelled as the
`VersionError` branch. -/
def createObjectStoreCore (st : St) (name : String) (indexes : List IndexSpec) :
    St × List Database × Except String Bool :=
  if indexes.any (fun i => stripWs i.name == "") then
    (st, [], .error "It is not possible to create a index without any character")
  else
    match st.client.database with
    | none => (st, [], .error "Database has not been initialized and/or does not exist")
    | some _ =>
      if containsStore st.db name then (st, [], .ok false)
      else if st.client.databaseVersion + 1 ≤ st.db.version then
        (st, [], .error "VersionError")
      else
        let os : ObjectStore := ⟨indexes.map (fun i => (i.name, i.unique)), [], 1⟩
        let p := upgradeOpen st (fun stores => setStoreList stores name os)
        (p.1, [p.2], .ok true)

/-- `#setLastModifyDateDatabase()` (src lines 869-899): create the
marker store (no modify-date recursion) when absent, otherwise clean it;
then insert the fresh timestamp record.  The default timezone is valid,
so the `Intl` validation always passes.  Each step is its own
transaction (and, when the marker store must be created, its own version
bump). -/
def setLastModifyDateDatabase (st : St) : St × List Database × Except String Bool :=
  match st.client.database with
  | none => (st, [], .error "Database has not been initialized and/or does not exist")
  | some _ =>
    let step1 : St × List Database × Except String Bool :=
      if !(containsStore st.db st.markerName) then
        createObjectStoreCore st st.markerName [⟨"lastModifyDate", false⟩]
      else cleanObjectStore st st.markerName
    match step1 with
    | (st1, tr1, .error e) => (st1, tr1, .error e)
    | (st1, tr1, .ok _) =>
      match insertDataObjectStore st1 st.markerName [("lastModifyDate", Val.str st.now)] with
      | (st2, tr2, .ok _) => (st2, tr1 ++ tr2, .ok true)
      | (st2, tr2, .error e) => (st2, tr1 ++ tr2, .error e)

/-- `createObjectStore(objectStoreName, indexes, setLastModifyDate)`
(src lines 115-148).  On the created path the success handler fires
`#setLastModifyDateDatabase()` without awaiting it — its outcome is
ignored — and resolves. -/
def createObjectStore (st : St) (name : String) (indexes : List IndexSpec)
    (setLastModifyDate : Bool) : St × List Database × Except String String :=
  match createObjectStoreCore st name indexes with
  | (st1, tr1, .error e) => (st1, tr1, .error e)
  | (st1, tr1, .ok false) =>
    (st1, tr1, .ok s!"Object Store \x27{name}\x27 already exist in the database")
  | (st1, tr1, .ok true) =>
    if setLastModifyDate then
      match setLastModifyDateDatabase st1 with
      | (st2, tr2, _) => (st2, tr1 ++ tr2, .ok "Object Store created successfully")
    else (st1, tr1, .ok "Object Store created successfully")

/-- `deleteObjectStore(objectStoreName)` (src lines 156-179): upgrade
transaction deleting the store, then `#setLastModifyDateDatabase()`
(result ignored) and resolve. -/
def deleteObjectStore (st : St) (name : String) : St × List Database × Except String String :=
  match st.client.database with
  | none => (st, [], .error "Database has not been initialized and/or does not exist")
  | some _ =>
    if !(containsStore st.db name) then
      (st, [], .error s!"Object Store \x27{name}\x27 does not exist")
    else if st.client.databaseVersion + 1 ≤ st.db.version then
      (st, [], .error "VersionError")
    else
      let p := upgradeOpen st (fun stores => stores.filter (fun q => !(q.1 == name)))
      match setLastModifyDateDatabase p.1 with
      | (st2, tr2, _) => (st2, p.2 :: tr2, .ok "Object Store deleted successfully")

/-- `addIndexObjectStore` helper of `updateStructureObjectStore`
(src lines 441-446). -/
def addIndexObjectStore (os : ObjectStore) (indexName : String) (unique : Bool) : ObjectStore :=
  if hasIndex os indexName then os
  else ⟨os.indexes ++ [(indexName, unique)], os.records, os.nextKey⟩

/-- `deleteIndexObjectStore` helper of `updateStructureObjectStore`
(src lines 447-451). -/
def deleteIndexObjectStore (os : ObjectStore) (indexName : String) : ObjectStore :=
  if !(hasIndex os indexName) then os
  else ⟨os.indexes.filter (fun p => !(p.1 == indexName)), os.records, os.nextKey⟩

/-- The in-place record mutation of `changeIndexObjectStore`
(src lines 489-493): `objData[newName] = objData[oldName];
delete objData[oldName]` when `oldName` is present. -/
def applyRename (r : Record) (ru : RenameSpec) : Record :=
  match getField r ru.oldName with
  | some v => deleteField (setField r ru.newName v) ru.oldName
  | none => r

/-- The pure data-migration transform of `changeIndexObjectStore`
(src lines 481-500): the outer loop walks the rename rules in order and
rewrites every record. -/
def changeIndexRecords (renames : List RenameSpec) (rs : List Record) : List Record :=
  renames.foldl (fun acc ru => acc.map (fun r => applyRename r ru)) rs

/-- The index edits of `changeIndexObjectStore`: per rule, create the
new index if absent and delete the old one if present. -/
def changeIndexIndexes (renames : List RenameSpec) (os : ObjectStore) : ObjectStore :=
  renames.foldl (fun o ru => deleteIndexObjectStore (addIndexObjectStore o ru.newName ru.unique) ru.oldName) os

/-- `updateStructureObjectStore(objectStoreName, arrayObjIndexesToAdd,
arrayIndexesToRemove, arrayObjChangeIndexesName)` (src lines 411-525).

First upgrade transaction (version `v+1`): validate every rename rule
against the current index names — on the first failure the promise is
rejected and the adds/removes are skipped, but the open has already
bumped the version and execution continues through the success handler —
otherwise apply the adds then the removes.  The success handler then
snapshots all records, opens a second upgrade (version `v+2`) whose
callback applies the rename rules to the snapshot and to the index set,
and its success handler clears the store and re-inserts the transformed
snapshot (skipped when the snapshot is empty, in which case the promise
already resolved inside the second upgrade; the clear still runs but the
store is already empty, and the re-insert of the cleared temp buffer
rejects into the settled promise).  The settled value is the first
resolution/rejection in that order. -/
def updateStructureObjectStore (st : St) (name : String) (adds : List IndexSpec)
    (removes : List String) (renames : List RenameSpec) :
    St × List Database × Except String String :=
  match st.client.database with
  | none => (st, [], .error "Database has not been initialized and/or does not exist")
  | some _ =>
    match getStore st.db name with
    | none => (st, [], .error s!"Object Store \x27{name}\x27 does not exist")
    | some os =>
      if st.client.databaseVersion + 1 ≤ st.db.version then
        (st, [], .error "VersionError")
      else
        let renameError : Option String :=
          (renames.filterMap (fun ru =>
            if !(hasIndex os ru.oldName) then
              some s!"The index \x27{ru.oldName}\x27 does not exist"
            else if hasIndex os ru.newName then
              some s!"The index \x27{ru.newName}\x27 already exist"
            else none)).head?
        let os1 :=
          if renameError.isSome then os
          else
            removes.foldl (fun o rn => deleteIndexObjectStore o rn)
              (adds.foldl (fun o a => addIndexObjectStore o a.name a.unique) os)
        let v1 := st.client.databaseVersion + 1
        let db1 : Database := ⟨v1, setStoreList st.db.stores name os1⟩
        let v2 := v1 + 1
        let snapshot := os1.records.map (fun kr => kr.2)
        let os2 := changeIndexIndexes renames os1
        let data2 := changeIndexRecords renames snapshot
        let db2 : Database := ⟨v2, setStoreList db1.stores name os2⟩
        let os3 : ObjectStore := ⟨os2.indexes, [], os2.nextKey⟩
        let db3 : Database := ⟨v2, setStoreList db2.stores name os3⟩
        let finalClient : Client := ⟨some (st.nextConn + 1), st.client.databaseName, v2⟩
        if data2.isEmpty then
          (⟨finalClient, db3, st.nextConn + 2, st.markerName, st.now⟩, [db1, db2, db3],
           match renameError with
           | some e => .error e
           | none => .ok "Object Store updated successfully")
        else
          match osAddAll os3 data2 with
          | .ok os4 =>
            let db4 : Database := ⟨v2, setStoreList db3.stores name os4⟩
            (⟨finalClient, db4, st.nextConn + 2, st.markerName, st.now⟩, [db1, db2, db3, db4],
             match renameError with
             | some e => .error e
             | none => .ok "Object Store updated successfully")
          | .error e2 =>
            (⟨finalClient, db3, st.nextConn + 2, st.markerName, st.now⟩, [db1, db2, db3],
             match renameError with
             | some e => .error e
             | none => .error e2)

inductive LastModifyRes where
  | ts (v : Val)
  | nullv
  | undefv
  deriving DecidableEq, Repr

/-- `getLastModifyDateDatabase()` (src lines 787-800): `selectAll` on
the marker store — rejecting when that store does not exist — then the
`lastModifyDate` field of the last record, `null` when the store holds
no record (`undefv` when the last record lacks the field). -/
def getLastModifyDateDatabase (st : St) : Except String LastModifyRes :=
  match st.client.database with
  | none => .error "Database has not been initialized and/or does not exist"
  | some _ =>
    match selectAllDataObjectStore st st.markerName [] with
    | .error e => .error e
    | .ok result =>
      match result.getLast? with
      | none => .ok .nullv
      | some last =>
        match getField last "lastModifyDate" with
        | some v => .ok (.ts v)
        | none => .ok .undefv

/-- `initialize(databaseName, databaseVersion)` (src lines 31-59),
modelled for an omitted `databaseVersion` (the claims only use that
form).  A database that has never been created reports version 0; the
unversioned open then creates it at version 1, firing `onupgradeneeded`,
which stores the connection and fires `#setLastModifyDateDatabase()`.
On an existing database `onsuccess` stores the connection and the
current version.  In both cases the connection stays in `#database`. -/
def initializeDatabase (st : St) (databaseName : String) : St × Except String String :=
  if st.client.database.isSome then (st, .ok "Database has already been initialised")
  else if st.db.version == 0 then
    let st1 : St := ⟨⟨some st.nextConn, databaseName, 1⟩, ⟨1, st.db.stores⟩,
      st.nextConn + 1, st.markerName, st.now⟩
    match setLastModifyDateDatabase st1 with
    | (st2, _, _) => (st2, .ok "Database updated and initialized successfully")
  else
    (⟨⟨some st.nextConn, databaseName, st.db.version⟩, st.db, st.nextConn + 1,
      st.markerName, st.now⟩, .ok "Database created and/or initialized successfully")

deriving instance DecidableEq for Except

/-- A users store with a non-unique `name` index and a non-unique `age`
index, holding two records. -/
def osEx : ObjectStore :=
  ⟨[("name", false), ("age", false)],
   [(1, [("name", Val.str "Eduardo"), ("age", Val.int 23)]),
    (2, [("name", Val.str "George"), ("age", Val.int 42)])], 3⟩

/-- The internal marker store holding one timestamp record. -/
def markerOsEx : ObjectStore :=
  ⟨[("lastModifyDate", false)],
   [(1, [("lastModifyDate", Val.str "2024-01-01 00:00:00")])], 2⟩

/-- An initialised client at version 1 with the users store and the
marker store. -/
def stEx : St :=
  ⟨⟨some 0, "mydb", 1⟩,
   ⟨1, [("users", osEx), ("__dateLastModifyDatabase", markerOsEx)]⟩,
   1, "__dateLastModifyDatabase", "2024-06-01 12:00:00"⟩

/-- An initialised client whose database has no marker store. -/
def stNoMarker : St :=
  ⟨⟨some 0, "mydb", 1⟩, ⟨1, [("users", osEx)]⟩,
   1, "__dateLastModifyDatabase", "2024-06-01 12:00:00"⟩

/-- The store of the delete-all-occurrences example of the spec:
records `(k:1,v:"a") (k:2,v:"a") (k:3,v:"b")` on a non-unique index
`v`. -/
def osKV : ObjectStore :=
  ⟨[("v", false)],
   [(1, [("k", Val.int 1), ("v", Val.str "a")]),
    (2, [("k", Val.int 2), ("v", Val.str "a")]),
    (3, [("k", Val.int 3), ("v", Val.str "b")])], 4⟩

/-- An initialised client holding the `osKV` store under the name `s`. -/
def stKV : St :=
  ⟨⟨some 0, "mydb", 1⟩, ⟨1, [("s", osKV)]⟩, 1, "__dateLastModifyDatabase", "t"⟩

/-- Do two records collide on some unique index of `idxs`: a unique
indexed field present on the first record with the same value on the
second? -/
def recordsConflict (idxs : List (String × Bool)) (r1 r2 : Record) : Bool :=
  idxs.any (fun p => p.2 && (getField r1 p.1).isSome &&
    (getField r1 p.1 == getField r2 p.1))

/-- The uniqueness invariant the engine maintains on every reachable
store: no two stored records collide on a unique index (every `add` that
would violate it is rejected). -/
def storeUniqueOk (os : ObjectStore) : Prop :=
  os.records.Pairwise (fun kr1 kr2 => recordsConflict os.indexes kr1.2 kr2.2 = false)

/-- A store with a unique `email` index and a non-unique `x` index. -/
def osUniqEx : ObjectStore :=
  ⟨[("email", true), ("x", false)],
   [(1, [("email", Val.str "alice"), ("x", Val.int 1)]),
    (2, [("email", Val.str "bob"), ("x", Val.int 2)])], 3⟩

/-- An initialised client holding the unique-index store `osUniqEx`
under the name `u`. -/
def stUniqEx : St :=
  ⟨⟨some 0, "mydb", 1⟩, ⟨1, [("u", osUniqEx)]⟩, 1, "__dateLastModifyDatabase", "t"⟩

theorem getField_setField_self (r : Record) (k : String) (v : Val) :
    getField (setField r k v) k = some v := by
  induction r with
  | nil => simp [setField, getField]
  | cons p t ih =>
    obtain ⟨k2, v2⟩ := p
    by_cases h : k2 = k
    · simp [setField, getField, h]
    · simp [setField, getField, h, ih]

theorem getField_setField_ne (r : Record) (k k2 : String) (v : Val) (h : k2 ≠ k) :
    getField (setField r k v) k2 = getField r k2 := by
  induction r with
  | nil => simp [setField, getField, Ne.symm h]
  | cons p t ih =>
    obtain ⟨k3, v3⟩ := p
    by_cases h3 : k3 = k
    · subst h3
      simp [setField, getField, Ne.symm h]
    · simp [setField, getField, h3, ih]

theorem getField_deleteField_self (r : Record) (k : String) :
    getField (deleteField r k) k = none := by
  induction r with
  | nil => simp [deleteField, getField]
  | cons p t ih =>
    obtain ⟨k2, v2⟩ := p
    by_cases h : k2 = k
    · simpa [deleteField, getField, h] using ih
    · simpa [deleteField, getField, h] using ih

theorem getField_deleteField_ne (r : Record) (k k2 : String) (h : k2 ≠ k) :
    getField (deleteField r k) k2 = getField r k2 := by
  induction r with
  | nil => simp [deleteField, getField]
  | cons p t ih =>
    obtain ⟨k3, v3⟩ := p
    by_cases h3 : k3 = k
    · subst h3
      simp [deleteField, getField, Ne.symm h, ih]
    · simp [deleteField, getField, h3, ih]

theorem getField_projectAux (r : Record) (ks : List String) (acc : Record) (kk : String) :
    getField (ks.foldl (fun a k =>
      match getField r k with
      | some v => setField a k v
      | none => a) acc) kk
      = if kk ∈ ks ∧ (getField r kk).isSome then getField r kk else getField acc kk := by
  induction ks generalizing acc with
  | nil => simp
  | cons k0 kt ih =>
    simp only [List.foldl_cons]
    rw [ih]
    by_cases hk : kk = k0
    · subst hk
      cases hr : getField r kk with
      | none => simp [hr]
      | some v =>
        by_cases hmem : kk ∈ kt
        · simp [hr, hmem]
        · simp [hr, hmem, getField_setField_self]
    · cases hr : getField r k0 with
      | none => simp [hk]
      | some v0 => simp [hk, getField_setField_ne _ _ _ _ hk]

theorem getField_projectRecord (r : Record) (ks : List String) (kk : String) :
    getField (projectRecord r ks) kk
      = if kk ∈ ks ∧ (getField r kk).isSome then getField r kk else none := by
  simpa [projectRecord, getField] using getField_projectAux r ks [] kk

theorem projectRecord_eq_nil (r : Record) (ks : List String)
    (h : ∀ kk ∈ ks, getField r kk = none) : projectRecord r ks = [] := by
  induction ks with
  | nil => rfl
  | cons k0 kt ih =>
    have h0 := h k0 (by simp)
    have ht : List.foldl (fun a k =>
        match getField r k with
        | some v => setField a k v
        | none => a) [] kt = [] := ih (fun kk hkk => h kk (by simp [hkk]))
    simp only [projectRecord, List.foldl_cons, h0]
    exact ht

theorem projectRecord_ne_nil (r : Record) (ks : List String) (kk : String) (v : Val)
    (hmem : kk ∈ ks) (hv : getField r kk = some v) : projectRecord r ks ≠ [] := by
  intro hnil
  have := getField_projectRecord r ks kk
  rw [hnil, hv] at this
  simp [hmem, getField] at this

theorem lookup_setStoreList_self (l : List (String × ObjectStore)) (n : String)
    (os : ObjectStore) : (setStoreList l n os).lookup n = some os := by
  induction l with
  | nil => simp [setStoreList, List.lookup]
  | cons p t ih =>
    obtain ⟨m, o⟩ := p
    by_cases h : m = n
    · simp [setStoreList, h, List.lookup]
    · have hb : (n == m) = false := beq_eq_false_iff_ne.mpr (Ne.symm h)
      simp [setStoreList, h, List.lookup, hb, ih]

theorem lookup_setStoreList_ne (l : List (String × ObjectStore)) (n m : String)
    (os : ObjectStore) (h : m ≠ n) : (setStoreList l n os).lookup m = l.lookup m := by
  have hb : (m == n) = false := beq_eq_false_iff_ne.mpr h
  induction l with
  | nil => simp [setStoreList, List.lookup, hb]
  | cons p t ih =>
    obtain ⟨m2, o⟩ := p
    by_cases h2 : m2 = n
    · subst h2
      simp [setStoreList, List.lookup, hb]
    · simp [setStoreList, List.lookup, h2, ih]

theorem lookup_filter_store_ne (l : List (String × ObjectStore)) (n m : String)
    (h : m ≠ n) : (l.filter (fun q => !(q.1 == n))).lookup m = l.lookup m := by
  have hb : (m == n) = false := beq_eq_false_iff_ne.mpr h
  induction l with
  | nil => rfl
  | cons p t ih =>
    obtain ⟨k, o⟩ := p
    by_cases hk : k = n
    · subst hk
      simp [List.filter_cons, List.lookup, hb, ih]
    · by_cases hm : k = m
      · subst hm
        simp [List.filter_cons, List.lookup, hk]
      · have hb2 : (m == k) = false := beq_eq_false_iff_ne.mpr (Ne.symm hm)
        simp [List.filter_cons, List.lookup, hk, hb2, ih]

theorem eq_of_fst_eq_nodup {l : List (Nat × Record)} {a b : Nat × Record}
    (hnd : (l.map Prod.fst).Nodup) (ha : a ∈ l) (hb : b ∈ l) (h : a.1 = b.1) : a = b := by
  induction l with
  | nil => cases ha
  | cons p t ih =>
    simp only [List.map_cons, List.nodup_cons] at hnd
    rcases List.mem_cons.mp ha with ha1 | ha2
    · rcases List.mem_cons.mp hb with hb1 | hb2
      · rw [ha1, hb1]
      · exfalso
        apply hnd.1
        rw [ha1] at h
        exact h ▸ List.mem_map_of_mem Prod.fst hb2
    · rcases List.mem_cons.mp hb with hb1 | hb2
      · exfalso
        apply hnd.1
        rw [hb1] at h
        exact h ▸ List.mem_map_of_mem Prod.fst ha2
      · exact ih hnd.2 ha2 hb2

theorem lookup_eq_of_mem_nodup (l : List (Nat × Record)) (k : Nat) (r : Record)
    (hmem : (k, r) ∈ l) (hnd : (l.map Prod.fst).Nodup) : l.lookup k = some r := by
  induction l with
  | nil => cases hmem
  | cons p t ih =>
    obtain ⟨k2, r2⟩ := p
    simp only [List.map_cons, List.nodup_cons] at hnd
    rcases List.mem_cons.mp hmem with heq | hmem2
    · rw [Prod.mk.injEq] at heq
      rw [heq.1, heq.2]
      simp [List.lookup]
    · by_cases hk : k2 = k
      · exfalso
        apply hnd.1
        rw [hk]
        exact List.mem_map_of_mem Prod.fst hmem2
      · have hb : (k == k2) = false := beq_eq_false_iff_ne.mpr (Ne.symm hk)
        simp [List.lookup, hb, ih hmem2 hnd.2]

theorem foldl_deleteKeys (keys : List Nat) (l : List (Nat × Record)) :
    keys.foldl (fun recs k => recs.filter (fun kr => !(kr.1 == k))) l
      = l.filter (fun kr => !(keys.contains kr.1)) := by
  induction keys generalizing l with
  | nil => simp
  | cons k0 kt ih =>
    simp only [List.foldl_cons]
    rw [ih, List.filter_filter]
    apply List.filter_congr
    intro kr _
    have hb : (kr.1 == k0) = decide (kr.1 = k0) := rfl
    simp [List.contains_cons, Bool.not_or, Bool.and_comm, hb]

theorem indexGetKey_mem (os : ObjectStore) (f : String) (v : Val) (k : Nat)
    (h : indexGetKey os f v = some k) :
    ∃ r, (k, r) ∈ os.records ∧ getField r f = some v := by
  unfold indexGetKey at h
  cases hh : (os.records.filter (fun kr => getField kr.2 f == some v)).head? with
  | none => rw [hh] at h; cases h
  | some kr =>
    rw [hh] at h
    have hmem := List.mem_of_mem_head? hh
    rw [List.mem_filter] at hmem
    refine ⟨kr.2, ?_, by simpa using hmem.2⟩
    have : kr.1 = k := by simpa using h
    rw [← this]
    exact hmem.1

theorem indexGetKey_min (os : ObjectStore) (f : String) (v : Val) (k : Nat)
    (hs : os.records.Pairwise (fun a b => a.1 < b.1))
    (h : indexGetKey os f v = some k) :
    ∀ kr ∈ os.records, getField kr.2 f = some v → k ≤ kr.1 := by
  intro kr hmem hval
  have hpf : (os.records.filter (fun kr => getField kr.2 f == some v)).Pairwise
      (fun a b => a.1 < b.1) := List.Pairwise.sublist (List.filter_sublist _) hs
  have hkrf : kr ∈ os.records.filter (fun kr => getField kr.2 f == some v) := by
    rw [List.mem_filter]
    exact ⟨hmem, by simpa using hval⟩
  unfold indexGetKey at h
  cases hfl : os.records.filter (fun kr => getField kr.2 f == some v) with
  | nil => rw [hfl] at hkrf; cases hkrf
  | cons kr0 tl =>
    rw [hfl] at h
    have hk0 : kr0.1 = k := by simpa using h
    rw [hfl] at hkrf hpf
    rw [List.pairwise_cons] at hpf
    rcases List.mem_cons.mp hkrf with heq | htl
    · rw [← hk0, heq]
    · rw [← hk0]
      exact Nat.le_of_lt (hpf.1 kr htl)

theorem addViolatesUnique_false_of_nonunique (os : ObjectStore) (r : Record)
    (h : os.indexes.all (fun p => !p.2) = true) : addViolatesUnique os r = false := by
  unfold addViolatesUnique
  rw [List.any_eq_false]
  intro idx hidx
  have := (List.all_eq_true.mp h) idx hidx
  simp only [Bool.not_eq_true'] at this
  simp [this]

theorem osAddAll_nonunique (os : ObjectStore) (rs : List Record)
    (h : os.indexes.all (fun p => !p.2) = true) :
    ∃ os2, osAddAll os rs = .ok os2 ∧ os2.indexes = os.indexes ∧
      os2.records.map Prod.snd = os.records.map Prod.snd ++ rs ∧
      os2.nextKey = os.nextKey + rs.length := by
  induction rs generalizing os with
  | nil => exact ⟨os, rfl, rfl, by simp, rfl⟩
  | cons r t ih =>
    have hv := addViolatesUnique_false_of_nonunique os r h
    have hstep : osAdd os r = .ok ⟨os.indexes, os.records ++ [(os.nextKey, r)], os.nextKey + 1⟩ := by
      simp [osAdd, hv]
    obtain ⟨os2, h1, h2, h3, h4⟩ :=
      ih (⟨os.indexes, os.records ++ [(os.nextKey, r)], os.nextKey + 1⟩ : ObjectStore) (by simpa using h)
    refine ⟨os2, ?_, by simpa using h2, ?_, ?_⟩
    · simp only [osAddAll, hstep]
      exact h1
    · rw [h3]
      simp
    · rw [h4]
      simp
      omega

theorem selectEntries_ok_of_forall (os : ObjectStore) (qs : List MultiQuery)
    (h : ∀ q ∈ qs, ∃ r, selectEntry os q = .ok r) :
    ∃ rs, selectEntries os qs = .ok rs ∧
      List.Forall₂ (fun q r => selectEntry os q = .ok r) qs rs := by
  induction qs with
  | nil => exact ⟨[], rfl, List.Forall₂.nil⟩
  | cons q t ih =>
    obtain ⟨r, hr⟩ := h q (by simp)
    obtain ⟨rs, hrs, hall⟩ := ih (fun q2 hq2 => h q2 (by simp [hq2]))
    refine ⟨r :: rs, ?_, List.Forall₂.cons hr hall⟩
    simp only [selectEntries, hr, hrs]

theorem selectEntries_error_of_mem (os : ObjectStore) (qs : List MultiQuery)
    (q : MultiQuery) (e : String) (hmem : q ∈ qs) (he : selectEntry os q = .error e) :
    ∃ e2, selectEntries os qs = .error e2 := by
  induction qs with
  | nil => cases hmem
  | cons q0 t ih =>
    rcases List.mem_cons.mp hmem with heq | ht
    · subst heq
      exact ⟨e, by simp only [selectEntries, he]⟩
    · cases hq0 : selectEntry os q0 with
      | error e0 => exact ⟨e0, by simp only [selectEntries, hq0]⟩
      | ok r0 =>
        obtain ⟨e2, he2⟩ := ih ht
        exact ⟨e2, by simp only [selectEntries, hq0, he2]⟩

theorem contains_indexGetAllKeys (os : ObjectStore) (f : String) (v : Val)
    (kr : Nat × Record) (hkr : kr ∈ os.records)
    (hnd : (os.records.map Prod.fst).Nodup) :
    (indexGetAllKeys os f v).contains kr.1 = (getField kr.2 f == some v) := by
  by_cases hv : getField kr.2 f = some v
  · have h1 : kr ∈ os.records.filter (fun kr => getField kr.2 f == some v) :=
      List.mem_filter.mpr ⟨hkr, by simpa using hv⟩
    have h2 : kr.1 ∈ indexGetAllKeys os f v := List.mem_map_of_mem Prod.fst h1
    simp [hv, h2]
  · have h2 : kr.1 ∉ indexGetAllKeys os f v := by
      intro hmem
      obtain ⟨kr2, hkr2, hfst⟩ := List.mem_map.mp hmem
      rw [List.mem_filter] at hkr2
      have heq : kr2 = kr := eq_of_fst_eq_nodup hnd hkr2.1 hkr hfst
      rw [heq] at hkr2
      exact hv (by simpa using hkr2.2)
    simp [hv, h2]

theorem deleteAllKeys_eq_filter (os : ObjectStore) (f : String) (v : Val)
    (hnd : (os.records.map Prod.fst).Nodup) :
    (indexGetAllKeys os f v).foldl
        (fun recs k => recs.filter (fun kr => !(kr.1 == k))) os.records
      = os.records.filter (fun kr => !(getField kr.2 f == some v)) := by
  rw [foldl_deleteKeys]
  apply List.filter_congr
  intro kr hkr
  rw [contains_indexGetAllKeys os f v kr hkr hnd]

theorem addViolatesUnique_empty (idxs : List (String × Bool)) (k : Nat) (r : Record) :
    addViolatesUnique ⟨idxs, [], k⟩ r = false := by
  unfold addViolatesUnique
  rw [List.any_eq_false]
  intro idx _
  cases hg : getField r idx.1 <;> simp [hg]

theorem insertDataObjectStore_version (st : St) (name : String) (r : Record) :
    (insertDataObjectStore st name r).1.db.version = st.db.version ∧
    (insertDataObjectStore st name r).1.client = st.client := by
  unfold insertDataObjectStore
  refine ⟨?_, ?_⟩ <;> (repeat' split) <;> rfl

theorem insertMultipleDataObjectStore_version (st : St) (name : String) (rs : List Record) :
    (insertMultipleDataObjectStore st name rs).1.db.version = st.db.version ∧
    (insertMultipleDataObjectStore st name rs).1.client = st.client := by
  unfold insertMultipleDataObjectStore
  refine ⟨?_, ?_⟩ <;> (repeat' split) <;> rfl

theorem updateDataObjectStore_version (st : St) (name index : String) (cv nv : Val)
    (ch : Bool) (upd : List (String × Val)) :
    (updateDataObjectStore st name index cv nv ch upd).1.db.version = st.db.version ∧
    (updateDataObjectStore st name index cv nv ch upd).1.client = st.client := by
  unfold updateDataObjectStore
  refine ⟨?_, ?_⟩ <;> (repeat' split) <;> rfl

theorem deleteDataObjectStore_version (st : St) (name indexName : String) (v : Val)
    (da : Bool) :
    (deleteDataObjectStore st name indexName v da).1.db.version = st.db.version ∧
    (deleteDataObjectStore st name indexName v da).1.client = st.client := by
  unfold deleteDataObjectStore
  refine ⟨?_, ?_⟩ <;> (repeat' split) <;> rfl

theorem deleteAllDataObjectStore_version (st : St) (name : String) (idxs : List String) :
    (deleteAllDataObjectStore st name idxs).1.db.version = st.db.version ∧
    (deleteAllDataObjectStore st name idxs).1.client = st.client := by
  unfold deleteAllDataObjectStore
  refine ⟨?_, ?_⟩ <;> (dsimp only; repeat' split) <;> rfl

theorem createObjectStoreCore_created (st : St) (c : Nat) (name : String)
    (idxs : List IndexSpec)
    (hc : st.client.database = some c)
    (hval : idxs.all (fun i => !(stripWs i.name == "")) = true)
    (habs : containsStore st.db name = false)
    (hsync : st.client.databaseVersion = st.db.version) :
    createObjectStoreCore st name idxs =
      (⟨⟨some st.nextConn, st.client.databaseName, st.db.version + 1⟩,
        ⟨st.db.version + 1,
         setStoreList st.db.stores name ⟨idxs.map (fun i => (i.name, i.unique)), [], 1⟩⟩,
        st.nextConn + 1, st.markerName, st.now⟩,
       [⟨st.db.version + 1,
         setStoreList st.db.stores name ⟨idxs.map (fun i => (i.name, i.unique)), [], 1⟩⟩],
       .ok true) := by
  have hany : idxs.any (fun i => stripWs i.name == "") = false := by
    rw [List.any_eq_false]
    intro i hi
    have := List.all_eq_true.mp hval i hi
    simpa using this
  unfold createObjectStoreCore
  rw [hany, hc, hsync, habs]
  simp only [Bool.false_eq_true, if_false]
  rw [if_neg (by omega)]
  simp only [upgradeOpen, hsync]

theorem setLastModifyDateDatabase_markerPresent (st : St) (c : Nat) (mOs : ObjectStore)
    (hc : st.client.database = some c)
    (hm : getStore st.db st.markerName = some mOs) :
    setLastModifyDateDatabase st =
      ({ st with db := ⟨st.db.version,
          setStoreList (setStoreList st.db.stores st.markerName ⟨mOs.indexes, [], mOs.nextKey⟩)
            st.markerName
            ⟨mOs.indexes, [(mOs.nextKey, [("lastModifyDate", Val.str st.now)])], mOs.nextKey + 1⟩⟩ },
       [⟨st.db.version, setStoreList st.db.stores st.markerName ⟨mOs.indexes, [], mOs.nextKey⟩⟩,
        ⟨st.db.version,
         setStoreList (setStoreList st.db.stores st.markerName ⟨mOs.indexes, [], mOs.nextKey⟩)
           st.markerName
           ⟨mOs.indexes, [(mOs.nextKey, [("lastModifyDate", Val.str st.now)])], mOs.nextKey + 1⟩⟩],
       .ok true) := by
  have hcont : containsStore st.db st.markerName = true := by
    simp [containsStore, hm]
  have hclean : deleteAllDataObjectStore st st.markerName [] =
      ({ st with db := ⟨st.db.version,
          setStoreList st.db.stores st.markerName ⟨mOs.indexes, [], mOs.nextKey⟩⟩ },
       [⟨st.db.version, setStoreList st.db.stores st.markerName ⟨mOs.indexes, [], mOs.nextKey⟩⟩],
       .ok "All data were removed") := by
    unfold deleteAllDataObjectStore
    rw [hc, hm]
    simp
  have hins : insertDataObjectStore
      ({ st with db := ⟨st.db.version,
          setStoreList st.db.stores st.markerName ⟨mOs.indexes, [], mOs.nextKey⟩⟩ } : St)
      st.markerName [("lastModifyDate", Val.str st.now)] =
      ({ st with db := ⟨st.db.version,
          setStoreList (setStoreList st.db.stores st.markerName ⟨mOs.indexes, [], mOs.nextKey⟩)
            st.markerName
            ⟨mOs.indexes, [(mOs.nextKey, [("lastModifyDate", Val.str st.now)])], mOs.nextKey + 1⟩⟩ },
       [⟨st.db.version,
         setStoreList (setStoreList st.db.stores st.markerName ⟨mOs.indexes, [], mOs.nextKey⟩)
           st.markerName
           ⟨mOs.indexes, [(mOs.nextKey, [("lastModifyDate", Val.str st.now)])], mOs.nextKey + 1⟩⟩],
       .ok "Data were inserted successfully") := by
    unfold insertDataObjectStore
    rw [hc]
    have hlook : getStore
        (⟨st.db.version, setStoreList st.db.stores st.markerName ⟨mOs.indexes, [], mOs.nextKey⟩⟩ : Database)
        st.markerName = some ⟨mOs.indexes, [], mOs.nextKey⟩ :=
      lookup_setStoreList_self _ _ _
    rw [hlook]
    simp [osAdd, addViolatesUnique_empty]
  unfold setLastModifyDateDatabase cleanObjectStore
  rw [hc, hcont]
  simp only [Bool.not_true, Bool.false_eq_true, if_false, hclean, hins]
  simp

theorem createObjectStore_created_spec (st : St) (c : Nat) (name : String)
    (idxs : List IndexSpec) (mOs : ObjectStore)
    (hc : st.client.database = some c)
    (hval : idxs.all (fun i => !(stripWs i.name == "")) = true)
    (habs : containsStore st.db name = false)
    (hm : getStore st.db st.markerName = some mOs)
    (hsync : st.client.databaseVersion = st.db.version) :
    createObjectStore st name idxs true =
      (⟨⟨some st.nextConn, st.client.databaseName, st.db.version + 1⟩,
        ⟨st.db.version + 1,
         setStoreList
           (setStoreList (setStoreList st.db.stores name ⟨idxs.map (fun i => (i.name, i.unique)), [], 1⟩)
             st.markerName ⟨mOs.indexes, [], mOs.nextKey⟩)
           st.markerName
           ⟨mOs.indexes, [(mOs.nextKey, [("lastModifyDate", Val.str st.now)])], mOs.nextKey + 1⟩⟩,
        st.nextConn + 1, st.markerName, st.now⟩,
       [⟨st.db.version + 1,
         setStoreList st.db.stores name ⟨idxs.map (fun i => (i.name, i.unique)), [], 1⟩⟩,
        ⟨st.db.version + 1,
         setStoreList (setStoreList st.db.stores name ⟨idxs.map (fun i => (i.name, i.unique)), [], 1⟩)
           st.markerName ⟨mOs.indexes, [], mOs.nextKey⟩⟩,
        ⟨st.db.version + 1,
         setStoreList
           (setStoreList (setStoreList st.db.stores name ⟨idxs.map (fun i => (i.name, i.unique)), [], 1⟩)
             st.markerName ⟨mOs.indexes, [], mOs.nextKey⟩)
           st.markerName
           ⟨mOs.indexes, [(mOs.nextKey, [("lastModifyDate", Val.str st.now)])], mOs.nextKey + 1⟩⟩],
       .ok "Object Store created successfully") := by
  have hne : st.markerName ≠ name := by
    intro heq
    rw [heq] at hm
    unfold containsStore at habs
    rw [hm] at habs
    simp at habs
  have hcore := createObjectStoreCore_created st c name idxs hc hval habs hsync
  unfold createObjectStore
  rw [hcore]
  have hm1 : getStore
      (⟨st.db.version + 1,
        setStoreList st.db.stores name ⟨idxs.map (fun i => (i.name, i.unique)), [], 1⟩⟩ : Database)
      st.markerName = some mOs := by
    unfold getStore
    rw [lookup_setStoreList_ne _ _ _ _ hne]
    exact hm
  have hsl := setLastModifyDateDatabase_markerPresent
      (⟨⟨some st.nextConn, st.client.databaseName, st.db.version + 1⟩,
        ⟨st.db.version + 1,
         setStoreList st.db.stores name ⟨idxs.map (fun i => (i.name, i.unique)), [], 1⟩⟩,
        st.nextConn + 1, st.markerName, st.now⟩ : St)
      st.nextConn mOs rfl hm1
  dsimp only
  rw [hsl]
  simp

theorem deleteObjectStore_spec (st : St) (c : Nat) (name : String) (mOs : ObjectStore)
    (hc : st.client.database = some c)
    (hcont : containsStore st.db name = true)
    (hm : getStore st.db st.markerName = some mOs)
    (hne : name ≠ st.markerName)
    (hsync : st.client.databaseVersion = st.db.version) :
    deleteObjectStore st name =
      (⟨⟨some st.nextConn, st.client.databaseName, st.db.version + 1⟩,
        ⟨st.db.version + 1,
         setStoreList
           (setStoreList (st.db.stores.filter (fun q => !(q.1 == name)))
             st.markerName ⟨mOs.indexes, [], mOs.nextKey⟩)
           st.markerName
           ⟨mOs.indexes, [(mOs.nextKey, [("lastModifyDate", Val.str st.now)])], mOs.nextKey + 1⟩⟩,
        st.nextConn + 1, st.markerName, st.now⟩,
       [⟨st.db.version + 1, st.db.stores.filter (fun q => !(q.1 == name))⟩,
        ⟨st.db.version + 1,
         setStoreList (st.db.stores.filter (fun q => !(q.1 == name)))
           st.markerName ⟨mOs.indexes, [], mOs.nextKey⟩⟩,
        ⟨st.db.version + 1,
         setStoreList
           (setStoreList (st.db.stores.filter (fun q => !(q.1 == name)))
             st.markerName ⟨mOs.indexes, [], mOs.nextKey⟩)
           st.markerName
           ⟨mOs.indexes, [(mOs.nextKey, [("lastModifyDate", Val.str st.now)])], mOs.nextKey + 1⟩⟩],
       .ok "Object Store deleted successfully") := by
  have hm1 : getStore
      (⟨st.db.version + 1, st.db.stores.filter (fun q => !(q.1 == name))⟩ : Database)
      st.markerName = some mOs := by
    unfold getStore
    rw [lookup_filter_store_ne _ _ _ (Ne.symm hne)]
    exact hm
  unfold deleteObjectStore
  rw [hc, hcont, hsync]
  simp only [Bool.not_true, Bool.false_eq_true, if_false]
  rw [if_neg (by omega)]
  unfold upgradeOpen
  rw [hsync]
  dsimp only
  have hsl := setLastModifyDateDatabase_markerPresent
      (⟨⟨some st.nextConn, st.client.databaseName, st.db.version + 1⟩,
        ⟨st.db.version + 1, st.db.stores.filter (fun q => !(q.1 == name))⟩,
        st.nextConn + 1, st.markerName, st.now⟩ : St)
      st.nextConn mOs rfl hm1
  rw [hsl]

theorem updateStructureObjectStore_version (st : St) (c : Nat) (name : String)
    (adds : List IndexSpec) (removes : List String) (renames : List RenameSpec)
    (os : ObjectStore)
    (hc : st.client.database = some c)
    (hos : getStore st.db name = some os)
    (hsync : st.client.databaseVersion = st.db.version) :
    (updateStructureObjectStore st name adds removes renames).1.client.databaseVersion
        = st.db.version + 2 ∧
    (updateStructureObjectStore st name adds removes renames).1.db.version
        = st.db.version + 2 := by
  unfold updateStructureObjectStore
  rw [hc, hos, hsync]
  dsimp only
  rw [if_neg (by omega)]
  refine ⟨?_, ?_⟩ <;> (dsimp only; repeat' split) <;> rfl

theorem insertDataObjectStore_nextConn (st : St) (name : String) (r : Record) :
    (insertDataObjectStore st name r).1.nextConn = st.nextConn := by
  unfold insertDataObjectStore
  (repeat' split) <;> rfl

theorem createObjectStore_alreadyExists (st : St) (c : Nat) (name : String)
    (idxs : List IndexSpec) (flag : Bool)
    (hc : st.client.database = some c)
    (hval : idxs.all (fun i => !(stripWs i.name == "")) = true)
    (hcont : containsStore st.db name = true) :
    createObjectStore st name idxs flag =
      (st, [], .ok s!"Object Store \x27{name}\x27 already exist in the database") := by
  have hany : idxs.any (fun i => stripWs i.name == "") = false := by
    rw [List.any_eq_false]
    intro i hi
    have := List.all_eq_true.mp hval i hi
    simpa using this
  unfold createObjectStore createObjectStoreCore
  rw [hany, hc, hcont]
  simp

theorem lookup_filter_store_self (l : List (String × ObjectStore)) (n : String) :
    (l.filter (fun q => !(q.1 == n))).lookup n = none := by
  induction l with
  | nil => rfl
  | cons p t ih =>
    obtain ⟨k, o⟩ := p
    by_cases hk : k = n
    · subst hk
      simp [List.filter_cons, ih]
    · have hb : (n == k) = false := beq_eq_false_iff_ne.mpr (Ne.symm hk)
      simp [List.filter_cons, hk, List.lookup, hb, ih]

theorem insertMultipleDataObjectStore_nextConn (st : St) (name : String)
    (rs : List Record) :
    (insertMultipleDataObjectStore st name rs).1.nextConn = st.nextConn := by
  unfold insertMultipleDataObjectStore
  (repeat' split) <;> rfl

theorem updateDataObjectStore_nextConn (st : St) (name i : String) (cv nv : Val)
    (ch : Bool) (upd : List (String × Val)) :
    (updateDataObjectStore st name i cv nv ch upd).1.nextConn = st.nextConn := by
  unfold updateDataObjectStore
  (repeat' split) <;> rfl

theorem deleteDataObjectStore_nextConn (st : St) (name i : String) (v : Val)
    (da : Bool) :
    (deleteDataObjectStore st name i v da).1.nextConn = st.nextConn := by
  unfold deleteDataObjectStore
  (repeat' split) <;> rfl

theorem deleteAllDataObjectStore_nextConn (st : St) (name : String)
    (idxs : List String) :
    (deleteAllDataObjectStore st name idxs).1.nextConn = st.nextConn := by
  unfold deleteAllDataObjectStore
  (dsimp only; repeat' split) <;> rfl

theorem updateStructureObjectStore_conn (st : St) (c : Nat) (name : String)
    (adds : List IndexSpec) (removes : List String) (renames : List RenameSpec)
    (os : ObjectStore)
    (hc : st.client.database = some c)
    (hos : getStore st.db name = some os)
    (hsync : st.client.databaseVersion = st.db.version) :
    (updateStructureObjectStore st name adds removes renames).1.client.database
        = some (st.nextConn + 1) ∧
    (updateStructureObjectStore st name adds removes renames).1.nextConn
        = st.nextConn + 2 := by
  unfold updateStructureObjectStore
  rw [hc, hos, hsync]
  dsimp only
  rw [if_neg (by omega)]
  refine ⟨?_, ?_⟩ <;> (dsimp only; repeat' split) <;> rfl

theorem updateStructureObjectStore_trace (st : St) (c : Nat) (name : String)
    (adds : List IndexSpec) (removes : List String) (renames : List RenameSpec)
    (os : ObjectStore)
    (hc : st.client.database = some c)
    (hos : getStore st.db name = some os)
    (hsync : st.client.databaseVersion = st.db.version)
    (hne : name ≠ st.markerName) :
    ∃ d1 d2 d3 rest,
      (updateStructureObjectStore st name adds removes renames).2.1
          = d1 :: d2 :: d3 :: rest ∧
      rest.length ≤ 1 ∧
      d1.version = st.db.version + 1 ∧
      d2.version = st.db.version + 2 ∧
      d3.version = st.db.version + 2 ∧
      ∀ d ∈ d1 :: d2 :: d3 :: rest,
        getStore d st.markerName = getStore st.db st.markerName := by
  have hmk : st.markerName ≠ name := Ne.symm hne
  unfold updateStructureObjectStore
  rw [hc, hos, hsync]
  dsimp only
  rw [if_neg (by omega)]
  repeat' split
  all_goals first
    | (refine ⟨_, _, _, [_], rfl, by simp, rfl, rfl, rfl, ?_⟩
       intro d hd
       simp only [List.mem_cons, List.not_mem_nil, or_false] at hd
       rcases hd with h | h | h | h <;> subst h <;>
         (unfold getStore; repeat rw [lookup_setStoreList_ne _ _ _ _ hmk]))
    | (refine ⟨_, _, _, [], rfl, by simp, rfl, rfl, rfl, ?_⟩
       intro d hd
       simp only [List.mem_cons, List.not_mem_nil, or_false] at hd
       rcases hd with h | h | h <;> subst h <;>
         (unfold getStore; repeat rw [lookup_setStoreList_ne _ _ _ _ hmk]))

theorem getField_foldl_deleteField (idxs : List String) (r : Record) (f : String) :
    getField (idxs.foldl (fun acc i => deleteField acc i) r) f
      = if f ∈ idxs then none else getField r f := by
  induction idxs generalizing r with
  | nil => simp
  | cons i0 it ih =>
    simp only [List.foldl_cons]
    rw [ih]
    by_cases hf : f = i0
    · subst hf
      by_cases hmem : f ∈ it
      · simp [hmem]
      · simp [hmem, getField_deleteField_self]
    · by_cases hmem : f ∈ it
      · simp [hmem, hf]
      · simp [hmem, hf, getField_deleteField_ne _ _ _ hf]

theorem addViolatesUnique_false_of_noConflict (idxs : List (String × Bool))
    (prev : List (Nat × Record)) (k : Nat) (r : Record)
    (h : ∀ kr ∈ prev, recordsConflict idxs kr.2 r = false) :
    addViolatesUnique ⟨idxs, prev, k⟩ r = false := by
  unfold addViolatesUnique
  rw [List.any_eq_false]
  intro p hp
  cases hg : getField r p.1 with
  | none => simp [hg]
  | some v =>
    simp only [hg]
    intro hcontra
    rw [Bool.and_eq_true] at hcontra
    obtain ⟨hp2, hany⟩ := hcontra
    rw [List.any_eq_true] at hany
    obtain ⟨kr, hkr, hbeq⟩ := hany
    have hkrv : getField kr.2 p.1 = some v := by simpa using hbeq
    have hcf := h kr hkr
    unfold recordsConflict at hcf
    rw [List.any_eq_false] at hcf
    have hq := hcf p hp
    rw [hkrv, hg] at hq
    simp [hp2] at hq

theorem osAddAll_ok_of_pairwise (idxs : List (String × Bool)) (rs : List Record) :
    ∀ prev k, rs.Pairwise (fun r1 r2 => recordsConflict idxs r1 r2 = false) →
      (∀ kr ∈ prev, ∀ r2 ∈ rs, recordsConflict idxs kr.2 r2 = false) →
      ∃ os2, osAddAll ⟨idxs, prev, k⟩ rs = .ok os2 ∧ os2.indexes = idxs ∧
        os2.records.map (fun kr => kr.2) = prev.map (fun kr => kr.2) ++ rs ∧
        os2.nextKey = k + rs.length := by
  induction rs with
  | nil =>
    intro prev k _ _
    exact ⟨⟨idxs, prev, k⟩, rfl, rfl, by simp, by simp⟩
  | cons r t ih =>
    intro prev k hpairs hcross
    rw [List.pairwise_cons] at hpairs
    have hviol : addViolatesUnique ⟨idxs, prev, k⟩ r = false :=
      addViolatesUnique_false_of_noConflict idxs prev k r
        (fun kr hkr => hcross kr hkr r (by simp))
    have hstep : osAdd ⟨idxs, prev, k⟩ r = .ok ⟨idxs, prev ++ [(k, r)], k + 1⟩ := by
      simp [osAdd, hviol]
    have hcross2 : ∀ kr ∈ prev ++ [(k, r)], ∀ r2 ∈ t,
        recordsConflict idxs kr.2 r2 = false := by
      intro kr hkr r2 hr2
      rcases List.mem_append.mp hkr with hpv | hnew
      · exact hcross kr hpv r2 (by simp [hr2])
      · simp only [List.mem_singleton] at hnew
        subst hnew
        exact hpairs.1 r2 hr2
    obtain ⟨os2, h1, h2, h3, h4⟩ := ih (prev ++ [(k, r)]) (k + 1) hpairs.2 hcross2
    refine ⟨os2, ?_, h2, ?_, ?_⟩
    · show osAddAll ⟨idxs, prev, k⟩ (r :: t) = .ok os2
      unfold osAddAll
      rw [hstep]
      exact h1
    · rw [h3]
      simp
    · rw [h4]
      simp
      omega

theorem recordsConflict_strip (idxs : List (String × Bool)) (dels : List String)
    (r1 r2 : Record) (h : recordsConflict idxs r1 r2 = false) :
    recordsConflict idxs (dels.foldl (fun acc i => deleteField acc i) r1)
      (dels.foldl (fun acc i => deleteField acc i) r2) = false := by
  unfold recordsConflict at h ⊢
  rw [List.any_eq_false] at h ⊢
  intro p hp
  have hh := h p hp
  rw [getField_foldl_deleteField, getField_foldl_deleteField]
  by_cases hmem : p.1 ∈ dels
  · simp [hmem]
  · simp only [hmem, if_false]
    exact hh

/-- C1 counterexample: on a synchronised initialised state,
`updateStructureObjectStore` bumps the version twice (one upgrade open
for the index edits and a second one for the data rewrite), so the
version after the structural operation is the version before plus 2,
not plus 1 as the claim states. -/
theorem c1_counterexample :
    (updateStructureObjectStore stEx "users" [] [] []).1.client.databaseVersion
        = stEx.client.databaseVersion + 2 ∧
    (updateStructureObjectStore stEx "users" [] [] []).1.client.databaseVersion
        ≠ stEx.client.databaseVersion + 1 ∧
    (updateStructureObjectStore stEx "users" [] [] []).1.db.version
        = stEx.db.version + 2 ∧
    (updateStructureObjectStore stEx "users" [] [] []).2.2
        = .ok "Object Store updated successfully" := by
  refine ⟨by decide, by decide, by decide, by decide⟩

/-- C1 (amended): createObjectStore and deleteObjectStore bump the
version by exactly 1 when the marker store already exists;
updateStructureObjectStore bumps it by exactly 2; the CRUD operations
(insert, multi-insert, cursor update, delete, delete-all) never change
the version. -/
theorem c1_version_bumps (st : St) (c : Nat) (mOs : ObjectStore)
    (hc : st.client.database = some c)
    (hm : getStore st.db st.markerName = some mOs)
    (hsync : st.client.databaseVersion = st.db.version) :
    (∀ name (idxs : List IndexSpec), idxs.all (fun i => !(stripWs i.name == "")) = true →
      containsStore st.db name = false →
      (createObjectStore st name idxs true).1.client.databaseVersion
          = st.client.databaseVersion + 1 ∧
      (createObjectStore st name idxs true).1.db.version = st.db.version + 1) ∧
    (∀ name, containsStore st.db name = true → name ≠ st.markerName →
      (deleteObjectStore st name).1.client.databaseVersion = st.client.databaseVersion + 1 ∧
      (deleteObjectStore st name).1.db.version = st.db.version + 1) ∧
    (∀ name adds removes renames os, getStore st.db name = some os →
      (updateStructureObjectStore st name adds removes renames).1.client.databaseVersion
          = st.client.databaseVersion + 2 ∧
      (updateStructureObjectStore st name adds removes renames).1.db.version
          = st.db.version + 2) ∧
    (∀ name r, (insertDataObjectStore st name r).1.db.version = st.db.version ∧
      (insertDataObjectStore st name r).1.client.databaseVersion
          = st.client.databaseVersion) ∧
    (∀ name rs, (insertMultipleDataObjectStore st name rs).1.db.version = st.db.version ∧
      (insertMultipleDataObjectStore st name rs).1.client.databaseVersion
          = st.client.databaseVersion) ∧
    (∀ name i cv nv ch upd,
      (updateDataObjectStore st name i cv nv ch upd).1.db.version = st.db.version ∧
      (updateDataObjectStore st name i cv nv ch upd).1.client.databaseVersion
          = st.client.databaseVersion) ∧
    (∀ name i v da, (deleteDataObjectStore st name i v da).1.db.version = st.db.version ∧
      (deleteDataObjectStore st name i v da).1.client.databaseVersion
          = st.client.databaseVersion) ∧
    (∀ name idxsD, (deleteAllDataObjectStore st name idxsD).1.db.version = st.db.version ∧
      (deleteAllDataObjectStore st name idxsD).1.client.databaseVersion
          = st.client.databaseVersion) := by
  refine ⟨?_, ?_, ?_, ?_, ?_, ?_, ?_, ?_⟩
  · intro name idxs hval habs
    rw [createObjectStore_created_spec st c name idxs mOs hc hval habs hm hsync, hsync]
    exact ⟨rfl, rfl⟩
  · intro name hcont hne
    rw [deleteObjectStore_spec st c name mOs hc hcont hm hne hsync, hsync]
    exact ⟨rfl, rfl⟩
  · intro name adds removes renames os hos
    have := updateStructureObjectStore_version st c name adds removes renames os hc hos hsync
    rw [hsync]
    exact this
  · intro name r
    have h := insertDataObjectStore_version st name r
    exact ⟨h.1, by rw [h.2]⟩
  · intro name rs
    have h := insertMultipleDataObjectStore_version st name rs
    exact ⟨h.1, by rw [h.2]⟩
  · intro name i cv nv ch upd
    have h := updateDataObjectStore_version st name i cv nv ch upd
    exact ⟨h.1, by rw [h.2]⟩
  · intro name i v da
    have h := deleteDataObjectStore_version st name i v da
    exact ⟨h.1, by rw [h.2]⟩
  · intro name idxsD
    have h := deleteAllDataObjectStore_version st name idxsD
    exact ⟨h.1, by rw [h.2]⟩

/-- C1 witness: the amended version arithmetic evaluated on the concrete
initialised state `stEx`. -/
theorem c1_version_bumps_witness :
    ((createObjectStore stEx "x" [] true).1.client.databaseVersion
        = stEx.client.databaseVersion + 1) ∧
    ((deleteObjectStore stEx "users").1.client.databaseVersion
        = stEx.client.databaseVersion + 1) ∧
    ((updateStructureObjectStore stEx "users" [] [] []).1.client.databaseVersion
        = stEx.client.databaseVersion + 2) ∧
    ((insertDataObjectStore stEx "users" [("name", Val.str "Zed")]).1.db.version
        = stEx.db.version) ∧
    ((deleteAllDataObjectStore stEx "users" []).1.db.version = stEx.db.version) := by
  have h := c1_version_bumps stEx 0 markerOsEx rfl rfl rfl
  exact ⟨(h.1 "x" [] (by decide) (by decide)).1,
    (h.2.1 "users" (by decide) (by decide)).1,
    (h.2.2.1 "users" [] [] [] osEx rfl).1,
    (h.2.2.2.1 "users" [("name", Val.str "Zed")]).1,
    (h.2.2.2.2.2.2.2 "users" []).1⟩

/-- C2 counterexample: on the concrete state `stEx`, a single
`createObjectStore` call commits three separate transactions; the first
committed state already contains the new container while still holding
the old modification marker, and only the third holds the new marker —
so the schema edit and the marker update are not applied inside one
indivisible transaction. -/
theorem c2_counterexample :
    (createObjectStore stEx "x" [] true).2.1.length = 3 ∧
    ((createObjectStore stEx "x" [] true).2.1.head?.map
        (fun d => containsStore d "x")) = some true ∧
    ((createObjectStore stEx "x" [] true).2.1.head?.map
        (fun d => (getStore d "__dateLastModifyDatabase").map (fun o => o.records)))
      = some (some [(1, [("lastModifyDate", Val.str "2024-01-01 00:00:00")])]) ∧
    ((getStore (createObjectStore stEx "x" [] true).1.db "__dateLastModifyDatabase").map
        (fun o => o.records))
      = some [(2, [("lastModifyDate", Val.str "2024-06-01 12:00:00")])] := by
  refine ⟨by decide, by decide, by decide, by decide⟩

/-- C2 (amended): each structural operation spreads its work over
several transactions with persisted intermediate states.  A creating
`createObjectStore` commits three: the upgrade applying the schema edit
(after which the marker store is still unchanged), a marker-clear, and a
marker-insert, and the first committed state differs from the final one.
`deleteObjectStore` behaves the same with the store removed by the first
commit.  `updateStructureObjectStore` commits its index edits and its
data rewrite in two separate upgrade transactions (versions `v+1` and
`v+2`) followed by the separate clear/re-insert transactions, and never
touches the marker store in any committed state. -/
theorem c2_transaction_boundaries (st : St) (c : Nat) (mOs : ObjectStore)
    (hc : st.client.database = some c)
    (hm : getStore st.db st.markerName = some mOs)
    (hsync : st.client.databaseVersion = st.db.version) :
    (∀ name (idxs : List IndexSpec), idxs.all (fun i => !(stripWs i.name == "")) = true →
      containsStore st.db name = false →
      ∃ d1 d2 d3,
        (createObjectStore st name idxs true).2.1 = [d1, d2, d3] ∧
        (createObjectStore st name idxs true).1.db = d3 ∧
        containsStore d1 name = true ∧
        getStore d1 st.markerName = some mOs ∧
        getStore d2 st.markerName = some ⟨mOs.indexes, [], mOs.nextKey⟩ ∧
        getStore d3 st.markerName =
          some ⟨mOs.indexes, [(mOs.nextKey, [("lastModifyDate", Val.str st.now)])],
                mOs.nextKey + 1⟩ ∧
        d1 ≠ d3) ∧
    (∀ name, containsStore st.db name = true → name ≠ st.markerName →
      ∃ d1 d2 d3,
        (deleteObjectStore st name).2.1 = [d1, d2, d3] ∧
        (deleteObjectStore st name).1.db = d3 ∧
        containsStore d1 name = false ∧
        getStore d1 st.markerName = some mOs ∧
        getStore d2 st.markerName = some ⟨mOs.indexes, [], mOs.nextKey⟩ ∧
        getStore d3 st.markerName =
          some ⟨mOs.indexes, [(mOs.nextKey, [("lastModifyDate", Val.str st.now)])],
                mOs.nextKey + 1⟩ ∧
        d1 ≠ d3) ∧
    (∀ name adds removes renames os, getStore st.db name = some os →
      name ≠ st.markerName →
      ∃ d1 d2 d3 rest,
        (updateStructureObjectStore st name adds removes renames).2.1
            = d1 :: d2 :: d3 :: rest ∧
        rest.length ≤ 1 ∧
        d1.version = st.db.version + 1 ∧
        d2.version = st.db.version + 2 ∧
        d3.version = st.db.version + 2 ∧
        ∀ d ∈ d1 :: d2 :: d3 :: rest, getStore d st.markerName = some mOs) := by
  refine ⟨?_, ?_, ?_⟩
  · intro name idxs hval habs
    have hne : st.markerName ≠ name := by
      intro heq
      rw [heq] at hm
      unfold containsStore at habs
      rw [hm] at habs
      simp at habs
    rw [createObjectStore_created_spec st c name idxs mOs hc hval habs hm hsync]
    refine ⟨_, _, _, rfl, rfl, ?_, ?_, ?_, ?_, ?_⟩
    · unfold containsStore getStore
      rw [lookup_setStoreList_self]
      rfl
    · unfold getStore
      rw [lookup_setStoreList_ne _ _ _ _ hne]
      exact hm
    · unfold getStore
      rw [lookup_setStoreList_self]
    · unfold getStore
      rw [lookup_setStoreList_self]
    · intro heq
      have h1 : getStore
          (⟨st.db.version + 1,
            setStoreList st.db.stores name
              ⟨idxs.map (fun i => (i.name, i.unique)), [], 1⟩⟩ : Database)
          st.markerName = some mOs := by
        unfold getStore
        rw [lookup_setStoreList_ne _ _ _ _ hne]
        exact hm
      rw [heq] at h1
      unfold getStore at h1
      rw [lookup_setStoreList_self] at h1
      have h2 : mOs.nextKey = mOs.nextKey + 1 := by
        have h3 := congrArg (fun o => (Option.map ObjectStore.nextKey o).getD 0) h1
        simp at h3
      omega
  · intro name hcont hne
    have hne2 : st.markerName ≠ name := Ne.symm hne
    rw [deleteObjectStore_spec st c name mOs hc hcont hm hne hsync]
    refine ⟨_, _, _, rfl, rfl, ?_, ?_, ?_, ?_, ?_⟩
    · unfold containsStore getStore
      rw [lookup_filter_store_self]
      rfl
    · unfold getStore
      rw [lookup_filter_store_ne _ _ _ hne2]
      exact hm
    · unfold getStore
      rw [lookup_setStoreList_self]
    · unfold getStore
      rw [lookup_setStoreList_self]
    · intro heq
      have h1 : getStore
          (⟨st.db.version + 1,
            st.db.stores.filter (fun q => !(q.1 == name))⟩ : Database)
          st.markerName = some mOs := by
        unfold getStore
        rw [lookup_filter_store_ne _ _ _ hne2]
        exact hm
      rw [heq] at h1
      unfold getStore at h1
      rw [lookup_setStoreList_self] at h1
      have h2 : mOs.nextKey = mOs.nextKey + 1 := by
        have h3 := congrArg (fun o => (Option.map ObjectStore.nextKey o).getD 0) h1
        simp at h3
      omega
  · intro name adds removes renames os hos hne
    obtain ⟨d1, d2, d3, rest, h1, h2, h3, h4, h5, h6⟩ :=
      updateStructureObjectStore_trace st c name adds removes renames os hc hos hsync hne
    exact ⟨d1, d2, d3, rest, h1, h2, h3, h4, h5,
      fun d hd => (h6 d hd).trans hm⟩

/-- C2 witness: the amended transaction-boundary descriptions evaluated
on the concrete state `stEx` for all three structural operations. -/
theorem c2_transaction_boundaries_witness :
    ((createObjectStore stEx "x" [] true).2.1.length = 3 ∧
     (createObjectStore stEx "x" [] true).1.db ∈ (createObjectStore stEx "x" [] true).2.1) ∧
    ((deleteObjectStore stEx "users").2.1.length = 3 ∧
     (deleteObjectStore stEx "users").1.db ∈ (deleteObjectStore stEx "users").2.1) ∧
    3 ≤ (updateStructureObjectStore stEx "users" [] [] []).2.1.length := by
  obtain ⟨hcr, hdel, hupd⟩ := c2_transaction_boundaries stEx 0 markerOsEx rfl rfl rfl
  refine ⟨?_, ?_, ?_⟩
  · obtain ⟨d1, d2, d3, h1, h2, -⟩ := hcr "x" [] (by decide) (by decide)
    constructor
    · rw [h1]
      rfl
    · rw [h1, h2]
      simp
  · obtain ⟨d1, d2, d3, h1, h2, -⟩ := hdel "users" (by decide) (by decide)
    constructor
    · rw [h1]
      rfl
    · rw [h1, h2]
      simp
  · obtain ⟨d1, d2, d3, rest, h1, -⟩ :=
      hupd "users" [] [] [] osEx rfl (by decide)
    rw [h1]
    simp
/-- C3: the data-migration rename transform is correct: for a rename
rule with distinct old and new names applied to a record holding the old
field, the value moves to the new field, the old field disappears and
every other field is untouched (field order is not contractual, so
fields are compared by lookup), and a record lacking every `oldName` of
the rule list passes through unchanged. -/
theorem c3_rename_correct (a b : String) (u : Bool) (r : Record) (hab : a ≠ b) :
    (∀ v, getField r a = some v →
      getField (applyRename r ⟨a, b, u⟩) b = some v ∧
      getField (applyRename r ⟨a, b, u⟩) a = none ∧
      ∀ k, k ≠ a → k ≠ b → getField (applyRename r ⟨a, b, u⟩) k = getField r k) ∧
    (changeIndexRecords [⟨a, b, u⟩] [r] = [applyRename r ⟨a, b, u⟩]) ∧
    (∀ rus : List RenameSpec, (∀ ru ∈ rus, getField r ru.oldName = none) →
      changeIndexRecords rus [r] = [r]) := by
  refine ⟨?_, by simp [changeIndexRecords], ?_⟩
  · intro v hv
    unfold applyRename
    simp only [hv]
    refine ⟨?_, ?_, ?_⟩
    · rw [getField_deleteField_ne _ _ _ (Ne.symm hab), getField_setField_self]
    · rw [getField_deleteField_self]
    · intro k hka hkb
      rw [getField_deleteField_ne _ _ _ hka, getField_setField_ne _ _ _ _ hkb]
  · intro rus
    induction rus with
    | nil => intro _; rfl
    | cons ru rut ih =>
      intro h
      have h0 : applyRename r ru = r := by
        unfold applyRename
        rw [h ru (by simp)]
      simp only [changeIndexRecords, List.foldl_cons, List.map_cons, List.map_nil, h0]
      exact ih (fun ru2 hru2 => h ru2 (by simp [hru2]))

/-- C3 witness: the spec example — renaming `a` to `b` on the record
`(a:1, c:2)` yields (up to field order) `(b:1, c:2)`, and a record
lacking `a` is passed through unchanged. -/
theorem c3_rename_correct_witness :
    (getField (applyRename [("a", Val.int 1), ("c", Val.int 2)] ⟨"a", "b", false⟩) "b"
        = some (Val.int 1)) ∧
    (getField (applyRename [("a", Val.int 1), ("c", Val.int 2)] ⟨"a", "b", false⟩) "a"
        = none) ∧
    (getField (applyRename [("a", Val.int 1), ("c", Val.int 2)] ⟨"a", "b", false⟩) "c"
        = some (Val.int 2)) ∧
    (changeIndexRecords [⟨"a", "b", false⟩] [[("a", Val.int 1), ("c", Val.int 2)]]
        = [[("c", Val.int 2), ("b", Val.int 1)]]) ∧
    (changeIndexRecords [⟨"a", "b", false⟩] [[("c", Val.int 2)]] = [[("c", Val.int 2)]]) := by
  have h := c3_rename_correct "a" "b" false [("a", Val.int 1), ("c", Val.int 2)] (by decide)
  refine ⟨(h.1 (Val.int 1) rfl).1, (h.1 (Val.int 1) rfl).2.1, ?_, by decide, ?_⟩
  · rw [(h.1 (Val.int 1) rfl).2.2 "c" (by decide) (by decide)]
    rfl
  · exact (c3_rename_correct "a" "b" false [("c", Val.int 2)] (by decide)).2.2
      [⟨"a", "b", false⟩] (by decide)

/-- C4 counterexample: on the concrete state `stEx`, a two-entry
`selectMultipleDataObjectStore` call whose second entry names the
undeclared index `bogus` rejects the whole call with the error of that entry
instead of resolving with a `null`/`undefined` slot. -/
theorem c4_counterexample :
    selectMultipleDataObjectStore stEx "users"
        [⟨"name", Val.str "Eduardo", []⟩, ⟨"bogus", Val.str "x", []⟩]
      = .error "The index \x27bogus\x27 passed as a parameter to an object in the \x27index\x27 property was not found in the Object Store" ∧
    (selectMultipleDataObjectStore stEx "users"
        [⟨"name", Val.str "Eduardo", []⟩, ⟨"bogus", Val.str "x", []⟩]).isOk = false := by
  refine ⟨by decide, by decide⟩

/-- C4 (amended): a failing query entry makes the whole
`selectMultipleDataObjectStore` call reject (`Promise.all`
short-circuits on the first inner rejection); only when every entry
succeeds does the call resolve, and then the results are in query
order. -/
theorem c4_reject_on_entry_failure (st : St) (c : Nat) (name : String)
    (os : ObjectStore) (qs : List MultiQuery)
    (hc : st.client.database = some c)
    (hos : getStore st.db name = some os)
    (hne : qs ≠ []) :
    ((∀ q ∈ qs, ∃ r, selectEntry os q = .ok r) →
      ∃ rs, selectMultipleDataObjectStore st name qs = .ok rs ∧
        List.Forall₂ (fun q r => selectEntry os q = .ok r) qs rs) ∧
    ((∃ q ∈ qs, ∃ e, selectEntry os q = .error e) →
      ∃ e2, selectMultipleDataObjectStore st name qs = .error e2) := by
  have hqsne : qs.isEmpty = false := by
    cases qs with
    | nil => exact absurd rfl hne
    | cons q t => rfl
  constructor
  · intro hok
    have hfind : qs.find? (fun q => !(hasIndex os q.index)) = none := by
      rw [List.find?_eq_none]
      intro q hq
      obtain ⟨r, hr⟩ := hok q hq
      intro hbad
      rw [Bool.not_eq_true'] at hbad
      unfold selectEntry at hr
      rw [hbad] at hr
      simp at hr
    obtain ⟨rs, hrs, hall⟩ := selectEntries_ok_of_forall os qs hok
    refine ⟨rs, ?_, hall⟩
    unfold selectMultipleDataObjectStore
    simp only [hqsne, hc, hos, hfind, Bool.false_eq_true, if_false]
    exact hrs
  · intro ⟨q, hq, e, he⟩
    unfold selectMultipleDataObjectStore
    cases hfind : qs.find? (fun q => !(hasIndex os q.index)) with
    | some q0 =>
      refine ⟨s!"The index \x27{q0.index}\x27 passed as a parameter to an object in the \x27index\x27 property was not found in the Object Store", ?_⟩
      simp only [hqsne, hc, hos, hfind, Bool.false_eq_true, if_false]
    | none =>
      obtain ⟨e2, he2⟩ := selectEntries_error_of_mem os qs q e hq he
      refine ⟨e2, ?_⟩
      simp only [hqsne, hc, hos, hfind, Bool.false_eq_true, if_false]
      exact he2

/-- C4 witness: the amended behaviour evaluated on `stEx` — an all-good
query list resolves, and a list with one failing entry (a value with no
occurrence) rejects. -/
theorem c4_reject_on_entry_failure_witness :
    (selectMultipleDataObjectStore stEx "users" [⟨"name", Val.str "Eduardo", []⟩]).isOk
        = true ∧
    (selectMultipleDataObjectStore stEx "users"
        [⟨"name", Val.str "Eduardo", []⟩, ⟨"name", Val.str "zzz", []⟩]).isOk = false := by
  constructor
  · obtain ⟨rs, hrs, -⟩ :=
      (c4_reject_on_entry_failure stEx 0 "users" osEx [⟨"name", Val.str "Eduardo", []⟩]
        rfl rfl (by decide)).1
        (by
          intro q hq
          simp only [List.mem_singleton] at hq
          subst hq
          exact ⟨SelectRes.obj [("name", Val.str "Eduardo"), ("age", Val.int 23)], rfl⟩)
    rw [hrs]
    rfl
  · obtain ⟨e2, he2⟩ :=
      (c4_reject_on_entry_failure stEx 0 "users"
        osEx [⟨"name", Val.str "Eduardo", []⟩, ⟨"name", Val.str "zzz", []⟩]
        rfl rfl (by decide)).2
        ⟨⟨"name", Val.str "zzz", []⟩, by decide,
         "The value \x27zzz\x27 passed as a parameter in an object in the \x27value\x27 property was not found", rfl⟩
    rw [he2]
    rfl

/-- C5 counterexample: on the concrete state `stEx`, a select whose
value has no occurrence resolves with `undefined` (the source catches
the `get(undefined)` DataError and resolves `undefined`), not with
`null` as the claim states. -/
theorem c5_counterexample :
    selectDataObjectStore stEx "users" "name" (Val.str "zzz") [] = .ok .undefv ∧
    selectDataObjectStore stEx "users" "name" (Val.str "zzz") [] ≠ .ok .nullv := by
  refine ⟨by decide, by decide⟩

/-- C5 (amended): `selectDataObjectStore` rejects with a no-such-index
error when the named index is undeclared; resolves with `undefined`
(not `null`) when no record matches the value; and, when a fields list
is given and a record matches, resolves with exactly the requested
fields present on the record, or with `null` when none of the requested
fields are present. -/
theorem c5_select_by_index (st : St) (c : Nat) (name idxName : String) (v : Val)
    (specific : List String) (os : ObjectStore)
    (hc : st.client.database = some c)
    (hos : getStore st.db name = some os)
    (hnd : (os.records.map Prod.fst).Nodup) :
    (hasIndex os idxName = false →
      selectDataObjectStore st name idxName v specific =
        .error s!"The index \x27{idxName}\x27 passed as a parameter was not found in the Object Store") ∧
    (hasIndex os idxName = true → indexGetKey os idxName v = none →
      selectDataObjectStore st name idxName v specific = .ok .undefv) ∧
    (∀ k r, hasIndex os idxName = true → indexGetKey os idxName v = some k →
      (k, r) ∈ os.records →
      (specific = [] → selectDataObjectStore st name idxName v specific = .ok (.obj r)) ∧
      (specific ≠ [] → ∀ kk0 ∈ specific, ∀ v0, getField r kk0 = some v0 →
        ∃ fr, selectDataObjectStore st name idxName v specific = .ok (.obj fr) ∧
          ∀ kk, getField fr kk =
            if kk ∈ specific ∧ (getField r kk).isSome then getField r kk else none) ∧
      (specific ≠ [] → (∀ kk ∈ specific, getField r kk = none) →
        selectDataObjectStore st name idxName v specific = .ok .nullv)) := by
  refine ⟨?_, ?_, ?_⟩
  · intro hbad
    unfold selectDataObjectStore
    simp only [hc, hos, hbad, Bool.not_false, if_true]
  · intro hidx hkey
    unfold selectDataObjectStore
    simp only [hc, hos, hidx, hkey, Bool.not_true, Bool.false_eq_true, if_false]
  · intro k r hidx hkey hmem
    have hlook : os.records.lookup k = some r := lookup_eq_of_mem_nodup os.records k r hmem hnd
    refine ⟨?_, ?_, ?_⟩
    · intro hsp
      subst hsp
      unfold selectDataObjectStore
      simp only [hc, hos, hidx, hkey, hlook, Bool.not_true, Bool.false_eq_true, if_false,
        List.isEmpty_nil, if_true]
    · intro hsp kk0 hkk0 v0 hv0
      have hfrne : projectRecord r specific ≠ [] :=
        projectRecord_ne_nil r specific kk0 v0 hkk0 hv0
      have hfrE : (projectRecord r specific).isEmpty = false := by
        cases hpr : projectRecord r specific with
        | nil => exact absurd hpr hfrne
        | cons x t => rfl
      refine ⟨projectRecord r specific, ?_, ?_⟩
      · unfold selectDataObjectStore
        have hspE : specific.isEmpty = false := by
          cases specific with
          | nil => exact absurd rfl hsp
          | cons x t => rfl
        simp only [hc, hos, hidx, hkey, hlook, hspE, hfrE, Bool.not_true,
          Bool.false_eq_true, if_false]
      · intro kk
        exact getField_projectRecord r specific kk
    · intro hsp hnone
      have hfr : projectRecord r specific = [] := projectRecord_eq_nil r specific hnone
      have hspE : specific.isEmpty = false := by
        cases specific with
        | nil => exact absurd rfl hsp
        | cons x t => rfl
      unfold selectDataObjectStore
      simp only [hc, hos, hidx, hkey, hlook, hspE, hfr, List.isEmpty_nil, Bool.not_true,
        Bool.false_eq_true, if_false, if_true]

/-- C5 witness: the amended behaviours evaluated on `stEx`: undeclared
index rejects, no occurrence resolves `undefined`, projection returns
the requested subset, and an all-absent fields list resolves `null`. -/
theorem c5_select_by_index_witness :
    (selectDataObjectStore stEx "users" "bogus" (Val.str "x") []
        = .error "The index \x27bogus\x27 passed as a parameter was not found in the Object Store") ∧
    (selectDataObjectStore stEx "users" "name" (Val.str "zzz") [] = .ok .undefv) ∧
    (selectDataObjectStore stEx "users" "name" (Val.str "Eduardo") [] =
        .ok (.obj [("name", Val.str "Eduardo"), ("age", Val.int 23)])) ∧
    ((selectDataObjectStore stEx "users" "name" (Val.str "Eduardo") ["age"]).isOk = true) ∧
    (selectDataObjectStore stEx "users" "name" (Val.str "Eduardo") ["missing"]
        = .ok .nullv) := by
  have h := c5_select_by_index stEx 0 "users" "name" (Val.str "Eduardo") [] osEx rfl rfl
    (by decide)
  have h2 := c5_select_by_index stEx 0 "users" "bogus" (Val.str "x") [] osEx rfl rfl
    (by decide)
  have h3 := c5_select_by_index stEx 0 "users" "name" (Val.str "zzz") [] osEx rfl rfl
    (by decide)
  have h4 := c5_select_by_index stEx 0 "users" "name" (Val.str "Eduardo") ["age"] osEx
    rfl rfl (by decide)
  have h5 := c5_select_by_index stEx 0 "users" "name" (Val.str "Eduardo") ["missing"] osEx
    rfl rfl (by decide)
  refine ⟨h2.1 (by decide), h3.2.1 (by decide) (by decide), ?_, ?_, ?_⟩
  · exact (h.2.2 1 [("name", Val.str "Eduardo"), ("age", Val.int 23)]
      (by decide) (by decide) (by decide)).1 rfl
  · obtain ⟨fr, hsel, -⟩ := (h4.2.2 1 [("name", Val.str "Eduardo"), ("age", Val.int 23)]
      (by decide) (by decide) (by decide)).2.1 (by decide) "age" (by decide)
      (Val.int 23) rfl
    rw [hsel]
    rfl
  · exact (h5.2.2 1 [("name", Val.str "Eduardo"), ("age", Val.int 23)]
      (by decide) (by decide) (by decide)).2.2 (by decide) (by decide)

/-- C6 counterexample: on the concrete state `stNoMarker`, whose
database has no marker store, `getLastModifyDateDatabase` rejects with
the store-does-not-exist error of the inner `selectAll` instead of
resolving with `null` as the claim states. -/
theorem c6_counterexample :
    getLastModifyDateDatabase stNoMarker
        = .error "Object Store \x27__dateLastModifyDatabase\x27 does not exist" ∧
    getLastModifyDateDatabase stNoMarker ≠ .ok .nullv := by
  refine ⟨by decide, by decide⟩

/-- C6 (amended): `getLastModifyDateDatabase` rejects when the marker
container does not exist; it resolves with `null` when the container
exists but holds no record, and otherwise resolves with the
`lastModifyDate` field of the last stored record. -/
theorem c6_last_modified (st : St) (c : Nat)
    (hc : st.client.database = some c) :
    (containsStore st.db st.markerName = false →
      ∃ e, getLastModifyDateDatabase st = .error e) ∧
    (∀ mOs, getStore st.db st.markerName = some mOs → mOs.records = [] →
      getLastModifyDateDatabase st = .ok .nullv) ∧
    (∀ mOs kr v2, getStore st.db st.markerName = some mOs →
      mOs.records.getLast? = some kr → getField kr.2 "lastModifyDate" = some v2 →
      getLastModifyDateDatabase st = .ok (.ts v2)) := by
  refine ⟨?_, ?_, ?_⟩
  · intro habs
    refine ⟨s!"Object Store \x27{st.markerName}\x27 does not exist", ?_⟩
    unfold getLastModifyDateDatabase selectAllDataObjectStore
    have hg : getStore st.db st.markerName = none := by
      unfold containsStore at habs
      cases hh : getStore st.db st.markerName with
      | none => rfl
      | some o => rw [hh] at habs; simp at habs
    simp only [hc, hg, List.filter_nil]
  · intro mOs hm hrec
    unfold getLastModifyDateDatabase selectAllDataObjectStore
    simp only [hc, hm, hrec, List.filter_nil, List.isEmpty_nil, if_true, List.map_nil,
      List.getLast?_nil]
  · intro mOs kr v2 hm hlast hfield
    unfold getLastModifyDateDatabase selectAllDataObjectStore
    have hmap : (mOs.records.map (fun kr => kr.2)).getLast? = some kr.2 := by
      rw [List.getLast?_map, hlast]
      rfl
    simp only [hc, hm, List.filter_nil, List.isEmpty_nil, if_true, hmap, hfield]

/-- C6 witness: the amended behaviour at the concrete states
`stNoMarker` (rejects) and `stEx` (resolves the stored timestamp), plus
the empty-marker case resolving `null`. -/
theorem c6_last_modified_witness :
    ((getLastModifyDateDatabase stNoMarker).isOk = false) ∧
    getLastModifyDateDatabase stEx = .ok (.ts (Val.str "2024-01-01 00:00:00")) ∧
    getLastModifyDateDatabase
        (⟨⟨some 0, "mydb", 1⟩,
          ⟨1, [("__dateLastModifyDatabase", ⟨[("lastModifyDate", false)], [], 1⟩)]⟩,
          1, "__dateLastModifyDatabase", "t"⟩ : St) = .ok .nullv := by
  refine ⟨?_, ?_, ?_⟩
  · obtain ⟨e, he⟩ := (c6_last_modified stNoMarker 0 rfl).1 (by decide)
    rw [he]
    rfl
  · exact (c6_last_modified stEx 0 rfl).2.2 markerOsEx
      (1, [("lastModifyDate", Val.str "2024-01-01 00:00:00")])
      (Val.str "2024-01-01 00:00:00") rfl (by decide) (by decide)
  · exact (c6_last_modified _ 0 rfl).2.1 ⟨[("lastModifyDate", false)], [], 1⟩ rfl rfl

/-- C7: `deleteDataObjectStore` on a declared index: with
`deleteAllOccurrences` false it deletes at most one record — when no key
matches the state is unchanged (the call rejects), and when a key
matches it is the first matching key in key order and exactly that
record is removed; with `deleteAllOccurrences` true exactly the records
whose indexed field equals the value are removed and all others are left
unchanged. -/
theorem c7_delete_by_index (st : St) (c : Nat) (name f : String) (v : Val)
    (os : ObjectStore)
    (hc : st.client.database = some c)
    (hos : getStore st.db name = some os)
    (hidx : hasIndex os f = true)
    (hs : os.records.Pairwise (fun a b => a.1 < b.1)) :
    (indexGetKey os f v = none → (deleteDataObjectStore st name f v false).1 = st) ∧
    (∀ k, indexGetKey os f v = some k →
      getStore (deleteDataObjectStore st name f v false).1.db name =
        some ⟨os.indexes, os.records.filter (fun kr => !(kr.1 == k)), os.nextKey⟩ ∧
      (∃ r, (k, r) ∈ os.records ∧ getField r f = some v) ∧
      (∀ kr ∈ os.records, getField kr.2 f = some v → k ≤ kr.1)) ∧
    (getStore (deleteDataObjectStore st name f v true).1.db name =
      some ⟨os.indexes, os.records.filter (fun kr => !(getField kr.2 f == some v)),
            os.nextKey⟩) := by
  have hnd : (os.records.map Prod.fst).Nodup := by
    unfold List.Nodup
    rw [List.pairwise_map]
    exact hs.imp (fun h => Nat.ne_of_lt h)
  refine ⟨?_, ?_, ?_⟩
  · intro hkey
    unfold deleteDataObjectStore
    simp only [hc, hos, hidx, hkey, Bool.not_true, Bool.false_eq_true, if_false,
      Bool.not_false, if_true]
  · intro k hkey
    refine ⟨?_, indexGetKey_mem os f v k hkey, indexGetKey_min os f v k hs hkey⟩
    unfold deleteDataObjectStore
    simp only [hc, hos, hidx, hkey, Bool.not_true, Bool.false_eq_true, if_false,
      Bool.not_false, if_true]
    unfold getStore
    rw [lookup_setStoreList_self]
  · unfold deleteDataObjectStore
    simp only [hc, hos, hidx, Bool.not_true, Bool.false_eq_true, if_false]
    unfold getStore
    rw [lookup_setStoreList_self]
    rw [deleteAllKeys_eq_filter os f v hnd]

/-- C7 witness: the delete-all-occurrences example of the spec — on records
`(k:1,v:"a") (k:2,v:"a") (k:3,v:"b")` deleting value `"a"` on index `v`
with `deleteAllOccurrences` removes exactly the first two, and without
it removes only the first. -/
theorem c7_delete_by_index_witness :
    (getStore (deleteDataObjectStore stKV "s" "v" (Val.str "a") true).1.db "s").map
        (fun o => o.records)
      = some [(3, [("k", Val.int 3), ("v", Val.str "b")])] ∧
    (getStore (deleteDataObjectStore stKV "s" "v" (Val.str "a") false).1.db "s").map
        (fun o => o.records)
      = some [(2, [("k", Val.int 2), ("v", Val.str "a")]),
              (3, [("k", Val.int 3), ("v", Val.str "b")])] := by
  have h := c7_delete_by_index stKV 0 "s" "v" (Val.str "a") osKV rfl rfl (by decide)
    (by decide)
  constructor
  · rw [h.2.2]
    decide
  · rw [(h.2.1 1 (by decide)).1]
    decide

/-- C8: `createObjectStore` is idempotent: a creating call resolves with
the created status, after it the container exists, and a second call
with the same name resolves with the already-exists status while leaving
the state — in particular the database version — completely unchanged. -/
theorem c8_create_idempotent (st : St) (c : Nat) (name : String)
    (idxs : List IndexSpec) (mOs : ObjectStore)
    (hc : st.client.database = some c)
    (hval : idxs.all (fun i => !(stripWs i.name == "")) = true)
    (habs : containsStore st.db name = false)
    (hm : getStore st.db st.markerName = some mOs)
    (hsync : st.client.databaseVersion = st.db.version) :
    (createObjectStore st name idxs true).2.2 = .ok "Object Store created successfully" ∧
    containsStore (createObjectStore st name idxs true).1.db name = true ∧
    createObjectStore (createObjectStore st name idxs true).1 name idxs true =
      ((createObjectStore st name idxs true).1, [],
       .ok s!"Object Store \x27{name}\x27 already exist in the database") := by
  have hne : st.markerName ≠ name := by
    intro heq
    rw [heq] at hm
    unfold containsStore at habs
    rw [hm] at habs
    simp at habs
  have hspec := createObjectStore_created_spec st c name idxs mOs hc hval habs hm hsync
  have hcontF : containsStore (createObjectStore st name idxs true).1.db name = true := by
    rw [hspec]
    unfold containsStore getStore
    rw [lookup_setStoreList_ne _ _ _ _ (Ne.symm hne),
      lookup_setStoreList_ne _ _ _ _ (Ne.symm hne), lookup_setStoreList_self]
    rfl
  have hcF : (createObjectStore st name idxs true).1.client.database = some st.nextConn := by
    rw [hspec]
  refine ⟨by rw [hspec], hcontF, ?_⟩
  exact createObjectStore_alreadyExists _ st.nextConn name idxs true hcF hval hcontF

/-- C8 witness: creating `"x"` on `stEx` and calling again: the second
call resolves already-exists and returns the state of the first call
unchanged. -/
theorem c8_create_idempotent_witness :
    (createObjectStore stEx "x" [] true).2.2 = .ok "Object Store created successfully" ∧
    (createObjectStore (createObjectStore stEx "x" [] true).1 "x" [] true).1
        = (createObjectStore stEx "x" [] true).1 ∧
    (createObjectStore (createObjectStore stEx "x" [] true).1 "x" [] true).1.client.databaseVersion
        = (createObjectStore stEx "x" [] true).1.client.databaseVersion := by
  have h := c8_create_idempotent stEx 0 "x" [] markerOsEx rfl (by decide) (by decide) rfl rfl
  refine ⟨h.1, ?_, ?_⟩
  · rw [h.2.2]
  · rw [h.2.2]

/-- C9 counterexample: on the concrete state `stEx`, a successful
insert finishes with the client still holding the same connection it
held before the call (`#database` is `some 0`, not released) and with no
fresh connection opened — contradicting the claim that every operation
opens a fresh connection and releases it on completion. -/
theorem c9_counterexample :
    (insertDataObjectStore stEx "users" [("name", Val.str "Zed")]).1.client.database
        = some 0 ∧
    (insertDataObjectStore stEx "users" [("name", Val.str "Zed")]).1.client.database
        ≠ none ∧
    (insertDataObjectStore stEx "users" [("name", Val.str "Zed")]).1.nextConn
        = stEx.nextConn ∧
    (insertDataObjectStore stEx "users" [("name", Val.str "Zed")]).2.2
        = .ok "Data were inserted successfully" := by
  refine ⟨by decide, by decide, by decide, by decide⟩

/-- C9 (amended): one connection is stored in `#database` and held
across operations.  Every mutating CRUD operation (insert, multi-insert,
cursor update, delete, delete-all) finishes with the same stored
connection and opens no fresh one (the read-only selects touch no state
at all in the embedding); `initialize` on an already-initialised client
is a no-op keeping the stored connection; and every structural operation
closes the stored connection and stores the freshly opened one (one new
connection for create/delete, two for updateStructure), which again
stays open. -/
theorem c9_connection_reuse (st : St) (c : Nat)
    (hc : st.client.database = some c) :
    (∀ name r, (insertDataObjectStore st name r).1.client.database = some c ∧
      (insertDataObjectStore st name r).1.nextConn = st.nextConn) ∧
    (∀ name rs, (insertMultipleDataObjectStore st name rs).1.client.database = some c ∧
      (insertMultipleDataObjectStore st name rs).1.nextConn = st.nextConn) ∧
    (∀ name i cv nv ch upd,
      (updateDataObjectStore st name i cv nv ch upd).1.client.database = some c ∧
      (updateDataObjectStore st name i cv nv ch upd).1.nextConn = st.nextConn) ∧
    (∀ name i v da,
      (deleteDataObjectStore st name i v da).1.client.database = some c ∧
      (deleteDataObjectStore st name i v da).1.nextConn = st.nextConn) ∧
    (∀ name idxsD,
      (deleteAllDataObjectStore st name idxsD).1.client.database = some c ∧
      (deleteAllDataObjectStore st name idxsD).1.nextConn = st.nextConn) ∧
    (∀ dbn, initializeDatabase st dbn = (st, .ok "Database has already been initialised")) ∧
    (∀ name idxs mOs, idxs.all (fun i => !(stripWs i.name == "")) = true →
      containsStore st.db name = false →
      getStore st.db st.markerName = some mOs →
      st.client.databaseVersion = st.db.version →
      (createObjectStore st name idxs true).1.client.database = some st.nextConn ∧
      (createObjectStore st name idxs true).1.nextConn = st.nextConn + 1) ∧
    (∀ name mOs, containsStore st.db name = true → name ≠ st.markerName →
      getStore st.db st.markerName = some mOs →
      st.client.databaseVersion = st.db.version →
      (deleteObjectStore st name).1.client.database = some st.nextConn ∧
      (deleteObjectStore st name).1.nextConn = st.nextConn + 1) ∧
    (∀ name adds removes renames os, getStore st.db name = some os →
      st.client.databaseVersion = st.db.version →
      (updateStructureObjectStore st name adds removes renames).1.client.database
          = some (st.nextConn + 1) ∧
      (updateStructureObjectStore st name adds removes renames).1.nextConn
          = st.nextConn + 2) := by
  refine ⟨?_, ?_, ?_, ?_, ?_, ?_, ?_, ?_, ?_⟩
  · intro name r
    have h := insertDataObjectStore_version st name r
    exact ⟨by rw [h.2, hc], insertDataObjectStore_nextConn st name r⟩
  · intro name rs
    have h := insertMultipleDataObjectStore_version st name rs
    exact ⟨by rw [h.2, hc], insertMultipleDataObjectStore_nextConn st name rs⟩
  · intro name i cv nv ch upd
    have h := updateDataObjectStore_version st name i cv nv ch upd
    exact ⟨by rw [h.2, hc], updateDataObjectStore_nextConn st name i cv nv ch upd⟩
  · intro name i v da
    have h := deleteDataObjectStore_version st name i v da
    exact ⟨by rw [h.2, hc], deleteDataObjectStore_nextConn st name i v da⟩
  · intro name idxsD
    have h := deleteAllDataObjectStore_version st name idxsD
    exact ⟨by rw [h.2, hc], deleteAllDataObjectStore_nextConn st name idxsD⟩
  · intro dbn
    unfold initializeDatabase
    simp [hc]
  · intro name idxs mOs hval habs hm hsync
    rw [createObjectStore_created_spec st c name idxs mOs hc hval habs hm hsync]
    exact ⟨rfl, rfl⟩
  · intro name mOs hcont hne hm hsync
    rw [deleteObjectStore_spec st c name mOs hc hcont hm hne hsync]
    exact ⟨rfl, rfl⟩
  · intro name adds removes renames os hos hsync
    exact updateStructureObjectStore_conn st c name adds removes renames os hc hos hsync

/-- C9 witness: the amended connection bookkeeping evaluated on `stEx`
for every CRUD and structural operation. -/
theorem c9_connection_reuse_witness :
    ((insertDataObjectStore stEx "users" [("name", Val.str "Zed")]).1.client.database
        = some 0) ∧
    ((insertMultipleDataObjectStore stEx "users" [[("name", Val.str "Ana")]]).1.nextConn
        = stEx.nextConn) ∧
    ((updateDataObjectStore stEx "users" "name" (Val.str "Eduardo") (Val.str "Edu")
        true []).1.client.database = some 0) ∧
    ((deleteDataObjectStore stEx "users" "name" (Val.str "Eduardo") false).1.client.database
        = some 0) ∧
    ((deleteAllDataObjectStore stEx "users" []).1.nextConn = stEx.nextConn) ∧
    (initializeDatabase stEx "mydb" = (stEx, .ok "Database has already been initialised")) ∧
    ((createObjectStore stEx "x" [] true).1.client.database = some stEx.nextConn) ∧
    ((deleteObjectStore stEx "users").1.client.database = some stEx.nextConn) ∧
    ((updateStructureObjectStore stEx "users" [] [] []).1.nextConn = stEx.nextConn + 2) := by
  have h := c9_connection_reuse stEx 0 rfl
  exact ⟨(h.1 "users" [("name", Val.str "Zed")]).1,
    (h.2.1 "users" [[("name", Val.str "Ana")]]).2,
    (h.2.2.1 "users" "name" (Val.str "Eduardo") (Val.str "Edu") true []).1,
    (h.2.2.2.1 "users" "name" (Val.str "Eduardo") false).1,
    (h.2.2.2.2.1 "users" []).2,
    h.2.2.2.2.2.1 "mydb",
    (h.2.2.2.2.2.2.1 "x" [] markerOsEx (by decide) (by decide) rfl rfl).1,
    (h.2.2.2.2.2.2.2.1 "users" markerOsEx (by decide) (by decide) rfl rfl).1,
    (h.2.2.2.2.2.2.2.2 "users" [] [] [] osEx rfl rfl).2⟩
/-- C10: `deleteAllDataObjectStore` with a non-empty list of field
names removes exactly those fields from every record, discards records
left with no fields, and re-inserts the remainder (with fresh keys, so
the statement compares record contents); with an empty list it clears
the whole container.  Either way it resolves with the removed status and
leaves the declared indexes intact.  The store is only assumed to
satisfy its own uniqueness invariant (`storeUniqueOk`, maintained by
every `add`); stripping fields can never create a unique-index
collision, so the re-insert always succeeds, unique indexes included. -/
theorem c10_delete_fields (st : St) (c : Nat) (name : String) (os : ObjectStore)
    (idxs : List String)
    (hc : st.client.database = some c)
    (hos : getStore st.db name = some os)
    (hstore : storeUniqueOk os) :
    (idxs ≠ [] →
      ∃ os2, getStore (deleteAllDataObjectStore st name idxs).1.db name = some os2 ∧
        os2.indexes = os.indexes ∧
        os2.records.map (fun kr => kr.2) =
          ((os.records.map (fun kr => kr.2)).map
            (fun r => idxs.foldl (fun acc i => deleteField acc i) r)).filter
            (fun r => !r.isEmpty) ∧
        (deleteAllDataObjectStore st name idxs).2.2 = .ok "All data were removed") ∧
    (idxs = [] →
      ∃ os2, getStore (deleteAllDataObjectStore st name idxs).1.db name = some os2 ∧
        os2.indexes = os.indexes ∧ os2.records = [] ∧
        (deleteAllDataObjectStore st name idxs).2.2 = .ok "All data were removed") := by
  constructor
  · intro hne
    have hE : idxs.isEmpty = false := by
      cases idxs with
      | nil => exact absurd rfl hne
      | cons x t => rfl
    by_cases hrem : ((os.records.map (fun kr => kr.2)).map
        (fun r => idxs.foldl (fun acc i => deleteField acc i) r)).filter
        (fun r => !r.isEmpty) = []
    · refine ⟨⟨os.indexes, [], os.nextKey⟩, ?_, rfl,
        by simp only [List.map_nil]; exact hrem.symm, ?_⟩
      · unfold deleteAllDataObjectStore
        simp only [hc, hos, hE, Bool.false_eq_true, if_false, hrem, List.isEmpty_nil,
          if_true]
        unfold getStore
        rw [lookup_setStoreList_self]
      · unfold deleteAllDataObjectStore
        simp only [hc, hos, hE, Bool.false_eq_true, if_false, hrem, List.isEmpty_nil,
          if_true]
    · have hrE : (((os.records.map (fun kr => kr.2)).map
          (fun r => idxs.foldl (fun acc i => deleteField acc i) r)).filter
          (fun r => !r.isEmpty)).isEmpty = false := by
        cases hl : ((os.records.map (fun kr => kr.2)).map
            (fun r => idxs.foldl (fun acc i => deleteField acc i) r)).filter
            (fun r => !r.isEmpty) with
        | nil => exact absurd hl hrem
        | cons x t => rfl
      have hpw : (((os.records.map (fun kr => kr.2)).map
          (fun r => idxs.foldl (fun acc i => deleteField acc i) r)).filter
          (fun r => !r.isEmpty)).Pairwise
          (fun r1 r2 => recordsConflict os.indexes r1 r2 = false) := by
        apply List.Pairwise.sublist (List.filter_sublist _)
        apply List.Pairwise.map _
          (fun r1 r2 h12 => recordsConflict_strip os.indexes idxs r1 r2 h12)
        exact List.Pairwise.map _ (fun kr1 kr2 h => h) hstore
      obtain ⟨os2, h1, h2, h3, h4⟩ := osAddAll_ok_of_pairwise os.indexes
        (((os.records.map (fun kr => kr.2)).map
          (fun r => idxs.foldl (fun acc i => deleteField acc i) r)).filter
          (fun r => !r.isEmpty)) [] os.nextKey hpw
        (by intro kr hkr; cases hkr)
      refine ⟨os2, ?_, h2, ?_, ?_⟩
      · unfold deleteAllDataObjectStore
        simp only [hc, hos, hE, Bool.false_eq_true, if_false, hrE, h1]
        unfold getStore
        rw [lookup_setStoreList_self]
      · rw [h3]
        simp
      · unfold deleteAllDataObjectStore
        simp only [hc, hos, hE, Bool.false_eq_true, if_false, hrE, h1]
  · intro hnil
    subst hnil
    refine ⟨⟨os.indexes, [], os.nextKey⟩, ?_, rfl, rfl, ?_⟩
    · unfold deleteAllDataObjectStore
      simp only [hc, hos, List.isEmpty_nil, if_true]
      unfold getStore
      rw [lookup_setStoreList_self]
    · unfold deleteAllDataObjectStore
      simp only [hc, hos, List.isEmpty_nil, if_true]

/-- C10 witness: on the concrete store `osKV`, deleting the field `v`
keeps the stripped records, deleting both fields discards every record,
and an empty field list clears the container; on the unique-index store
`osUniqEx`, stripping the non-indexed field keeps the unique `email`
values and the re-insert succeeds. -/
theorem c10_delete_fields_witness :
    ((getStore (deleteAllDataObjectStore stKV "s" ["v"]).1.db "s").map
        (fun o => o.records.map (fun kr => kr.2)))
      = some [[("k", Val.int 1)], [("k", Val.int 2)], [("k", Val.int 3)]] ∧
    ((getStore (deleteAllDataObjectStore stKV "s" ["k", "v"]).1.db "s").map
        (fun o => o.records))
      = some [] ∧
    ((getStore (deleteAllDataObjectStore stKV "s" []).1.db "s").map
        (fun o => o.records))
      = some [] ∧
    ((getStore (deleteAllDataObjectStore stUniqEx "u" ["x"]).1.db "u").map
        (fun o => o.records.map (fun kr => kr.2)))
      = some [[("email", Val.str "alice")], [("email", Val.str "bob")]] := by
  obtain ⟨os2, ha1, -, ha3, -⟩ :=
    (c10_delete_fields stKV 0 "s" osKV ["v"] rfl rfl
      (by unfold storeUniqueOk; decide)).1 (by decide)
  obtain ⟨os3, hb1, -, hb3, -⟩ :=
    (c10_delete_fields stKV 0 "s" osKV ["k", "v"] rfl rfl
      (by unfold storeUniqueOk; decide)).1 (by decide)
  obtain ⟨os4, hc1, -, hc3, -⟩ :=
    (c10_delete_fields stKV 0 "s" osKV [] rfl rfl
      (by unfold storeUniqueOk; decide)).2 rfl
  obtain ⟨os5, hd1, -, hd3, -⟩ :=
    (c10_delete_fields stUniqEx 0 "u" osUniqEx ["x"] rfl rfl
      (by unfold storeUniqueOk; decide)).1 (by decide)
  refine ⟨?_, ?_, ?_, ?_⟩
  · rw [ha1]
    simp only [Option.map_some']
    rw [ha3]
    decide
  · rw [hb1]
    simp only [Option.map_some']
    have hlen : os3.records.length = 0 := by
      have h := congrArg List.length hb3
      simp only [List.length_map] at h
      rw [h]
      decide
    rw [List.length_eq_zero.mp hlen]
  · rw [hc1]
    simp only [Option.map_some']
    rw [hc3]
  · rw [hd1]
    simp only [Option.map_some']
    rw [hd3]
    decide
